import Mathlib

/-!
Shallow embedding of the fhe-invoice-dapp contracts and proofs about them.

The repository ships three Solidity contract variants:
* `SimpleInvoice`   — plaintext amounts, four statuses (Pending/Paid/Cancelled/Disputed);
* `InvoiceManager`  — encrypted amounts, three statuses (no Disputed), `updatedAt` field;
* `ConfidentialInvoice` — encrypted amounts plus a per-user encrypted balance ledger,
  four statuses, `dueDate` field.

Addresses are modelled as `Nat` (0 is the zero address), timestamps as `Nat`,
strings as `String`.  Each external function takes the contract state plus the
transaction environment (`caller` = msg.sender, `now` = block.timestamp where the
source reads it) and returns `Except Err …`: an `Except.error` models a Solidity
`revert`, which rolls the whole transaction back, so an erroring call leaves the
state unchanged by construction.
-/

namespace Fhe

/-- Word bound of the `euint64` ciphertext type: values live in `[0, 2^64)`. -/
def W : Nat := 2 ^ 64

/-- Modelled from the spec: the external FHE coprocessor primitive
`FHE.fromExternal(ciphertext, proof)` converting a caller-supplied encrypted
64-bit input into a usable handle.  Following the spec's instruction to model the
FHE primitives as exact 64-bit integer arithmetic, the handle is its plaintext
value reduced into the `euint64` range; proof verification is delegated to the
external platform and not modelled. -/
def fromExternal (v : Nat) : Nat := v % W

/-- Modelled from the spec: homomorphic 64-bit addition (`FHE.add`), exact
arithmetic modulo `2^64`. -/
def add (a b : Nat) : Nat := (a + b) % W

/-- Modelled from the spec: homomorphic 64-bit subtraction (`FHE.sub`), exact
wrap-around arithmetic modulo `2^64` (arguments are expected in `[0, W)`). -/
def sub (a b : Nat) : Nat := (a + W - b) % W

/-- Modelled from the spec: homomorphic comparison `FHE.ge a b`, deciding
`a ≥ b` on the underlying plaintexts. -/
def ge (a b : Nat) : Bool := b ≤ a

/-- Modelled from the spec: homomorphic conditional select `FHE.select c a b`,
returning `a` when the encrypted boolean holds and `b` otherwise. -/
def select (c : Bool) (a b : Nat) : Nat := if c then a else b

theorem sub_zero_of_lt {a : Nat} (h : a < W) : sub a 0 = a := by
  simp only [sub, W] at h ⊢
  omega

theorem add_zero_of_lt {a : Nat} (h : a < W) : add a 0 = a := by
  simp only [add, W] at h ⊢
  omega

end Fhe

namespace SimpleInvoice

/-- Invoice status enum of the plaintext `SimpleInvoice` contract. -/
inductive InvoiceStatus where
  | Pending
  | Paid
  | Cancelled
  | Disputed
deriving DecidableEq, Repr

/-- The `Invoice` struct of `SimpleInvoice`. -/
structure Invoice where
  id : Nat
  sender : Nat
  recipient : Nat
  amount : Nat
  description : String
  status : InvoiceStatus
  createdAt : Nat
  dueDate : Nat
deriving DecidableEq, Repr

/-- The all-zero struct a Solidity mapping yields for a never-written key;
existence of an invoice is tested by `sender ≠ 0`. -/
def zeroInvoice : Invoice :=
  { id := 0, sender := 0, recipient := 0, amount := 0, description := "",
    status := .Pending, createdAt := 0, dueDate := 0 }

/-- The custom errors declared by `SimpleInvoice`. -/
inductive Err where
  | InvalidRecipient
  | InvoiceNotFound
  | NotAuthorized
  | InvalidStatus
  | InvalidAmount
deriving DecidableEq, Repr

/-- Contract storage of `SimpleInvoice`: the id counter and the three mappings. -/
structure State where
  invoiceCounter : Nat
  invoices : Nat → Invoice
  sentInvoices : Nat → List Nat
  receivedInvoices : Nat → List Nat

/-- Storage right after the constructor ran. -/
def initState : State :=
  { invoiceCounter := 0, invoices := fun _ => zeroInvoice,
    sentInvoices := fun _ => [], receivedInvoices := fun _ => [] }

/-- `SimpleInvoice.createInvoice(recipient, amount, description, dueDate)`;
`caller` is msg.sender and `now` is block.timestamp.  A `dueDate` of `0`
defaults to `block.timestamp + 30 days` (30 days = 2592000 seconds). -/
def createInvoice (st : State) (caller now recipient amount : Nat)
    (description : String) (dueDate : Nat) : Except Err (Nat × State) :=
  if recipient = 0 ∨ recipient = caller then .error .InvalidRecipient
  else if amount = 0 then .error .InvalidAmount
  else
    let invoiceId := st.invoiceCounter
    let inv : Invoice :=
      { id := invoiceId, sender := caller, recipient := recipient, amount := amount,
        description := description, status := .Pending, createdAt := now,
        dueDate := if dueDate = 0 then now + 30 * 86400 else dueDate }
    .ok (invoiceId,
      { invoiceCounter := st.invoiceCounter + 1,
        invoices := Function.update st.invoices invoiceId inv,
        sentInvoices :=
          Function.update st.sentInvoices caller (st.sentInvoices caller ++ [invoiceId]),
        receivedInvoices :=
          Function.update st.receivedInvoices recipient
            (st.receivedInvoices recipient ++ [invoiceId]) })

/-- `SimpleInvoice.payInvoice(invoiceId)` called by `caller`. -/
def payInvoice (st : State) (caller invoiceId : Nat) : Except Err State :=
  let invoice := st.invoices invoiceId
  if invoice.sender = 0 then .error .InvoiceNotFound
  else if invoice.status ≠ .Pending then .error .InvalidStatus
  else if caller ≠ invoice.recipient then .error .NotAuthorized
  else .ok { st with
    invoices := Function.update st.invoices invoiceId { invoice with status := .Paid } }

/-- `SimpleInvoice.cancelInvoice(invoiceId)` called by `caller`. -/
def cancelInvoice (st : State) (caller invoiceId : Nat) : Except Err State :=
  let invoice := st.invoices invoiceId
  if invoice.sender = 0 then .error .InvoiceNotFound
  else if invoice.status ≠ .Pending then .error .InvalidStatus
  else if caller ≠ invoice.sender then .error .NotAuthorized
  else .ok { st with
    invoices := Function.update st.invoices invoiceId { invoice with status := .Cancelled } }

/-- `SimpleInvoice.disputeInvoice(invoiceId)` called by `caller`. -/
def disputeInvoice (st : State) (caller invoiceId : Nat) : Except Err State :=
  let invoice := st.invoices invoiceId
  if invoice.sender = 0 then .error .InvoiceNotFound
  else if invoice.status ≠ .Pending then .error .InvalidStatus
  else if caller ≠ invoice.recipient then .error .NotAuthorized
  else .ok { st with
    invoices := Function.update st.invoices invoiceId { invoice with status := .Disputed } }

/-- `SimpleInvoice.getInvoice(invoiceId)`: the tuple of public fields. -/
def getInvoice (st : State) (invoiceId : Nat) :
    Except Err (Nat × Nat × Nat × Nat × String × InvoiceStatus × Nat × Nat) :=
  let invoice := st.invoices invoiceId
  if invoice.sender = 0 then .error .InvoiceNotFound
  else .ok (invoice.id, invoice.sender, invoice.recipient, invoice.amount,
            invoice.description, invoice.status, invoice.createdAt, invoice.dueDate)

/-- `SimpleInvoice.getSentInvoices(user)`. -/
def getSentInvoices (st : State) (user : Nat) : List Nat := st.sentInvoices user

/-- `SimpleInvoice.getReceivedInvoices(user)`. -/
def getReceivedInvoices (st : State) (user : Nat) : List Nat := st.receivedInvoices user

/-- `SimpleInvoice.getInvoiceCount()`. -/
def getInvoiceCount (st : State) : Nat := st.invoiceCounter

end SimpleInvoice

namespace InvoiceManager

/-- Invoice status enum of `InvoiceManager` (three states, no Disputed). -/
inductive InvoiceStatus where
  | Pending
  | Paid
  | Cancelled
deriving DecidableEq, Repr

/-- The `Invoice` struct of `InvoiceManager`; `encryptedAmount` is the `euint64`
handle, modelled by its 64-bit plaintext value. -/
structure Invoice where
  id : Nat
  sender : Nat
  recipient : Nat
  encryptedAmount : Nat
  description : String
  status : InvoiceStatus
  createdAt : Nat
  updatedAt : Nat
deriving DecidableEq, Repr

/-- The all-zero struct a Solidity mapping yields for a never-written key. -/
def zeroInvoice : Invoice :=
  { id := 0, sender := 0, recipient := 0, encryptedAmount := 0, description := "",
    status := .Pending, createdAt := 0, updatedAt := 0 }

/-- The custom errors declared by `InvoiceManager`, with their arguments. -/
inductive Err where
  | InvoiceNotFound (invoiceId : Nat)
  | NotAuthorized (caller invoiceId : Nat)
  | InvalidRecipient (recipient : Nat)
  | InvoiceNotPending (invoiceId : Nat)
  | OnlySenderCanCancel (invoiceId : Nat)
  | OnlyRecipientCanPay (invoiceId : Nat)
deriving DecidableEq, Repr

/-- Contract storage of `InvoiceManager`. -/
structure State where
  invoiceIdCounter : Nat
  invoices : Nat → Invoice
  sentInvoices : Nat → List Nat
  receivedInvoices : Nat → List Nat

/-- Storage right after the constructor ran. -/
def initState : State :=
  { invoiceIdCounter := 0, invoices := fun _ => zeroInvoice,
    sentInvoices := fun _ => [], receivedInvoices := fun _ => [] }

/-- `InvoiceManager.createInvoice(recipient, encryptedAmount, inputProof, description)`;
the FHE `allow` grants act on the external coprocessor, not on contract storage. -/
def createInvoice (st : State) (caller now recipient extAmount : Nat)
    (description : String) : Except Err (Nat × State) :=
  if recipient = 0 ∨ recipient = caller then .error (.InvalidRecipient recipient)
  else
    let invoiceId := st.invoiceIdCounter
    let amount := Fhe.fromExternal extAmount
    let inv : Invoice :=
      { id := invoiceId, sender := caller, recipient := recipient,
        encryptedAmount := amount, description := description, status := .Pending,
        createdAt := now, updatedAt := now }
    .ok (invoiceId,
      { invoiceIdCounter := st.invoiceIdCounter + 1,
        invoices := Function.update st.invoices invoiceId inv,
        sentInvoices :=
          Function.update st.sentInvoices caller (st.sentInvoices caller ++ [invoiceId]),
        receivedInvoices :=
          Function.update st.receivedInvoices recipient
            (st.receivedInvoices recipient ++ [invoiceId]) })

/-- `InvoiceManager.payInvoice(invoiceId)`; sets status Paid and refreshes `updatedAt`. -/
def payInvoice (st : State) (caller now invoiceId : Nat) : Except Err State :=
  let invoice := st.invoices invoiceId
  if invoice.sender = 0 then .error (.InvoiceNotFound invoiceId)
  else if invoice.status ≠ .Pending then .error (.InvoiceNotPending invoiceId)
  else if caller ≠ invoice.recipient then .error (.OnlyRecipientCanPay invoiceId)
  else .ok { st with
    invoices := Function.update st.invoices invoiceId
      { invoice with status := .Paid, updatedAt := now } }

/-- `InvoiceManager.cancelInvoice(invoiceId)`; sets status Cancelled and refreshes
`updatedAt`. -/
def cancelInvoice (st : State) (caller now invoiceId : Nat) : Except Err State :=
  let invoice := st.invoices invoiceId
  if invoice.sender = 0 then .error (.InvoiceNotFound invoiceId)
  else if invoice.status ≠ .Pending then .error (.InvoiceNotPending invoiceId)
  else if caller ≠ invoice.sender then .error (.OnlySenderCanCancel invoiceId)
  else .ok { st with
    invoices := Function.update st.invoices invoiceId
      { invoice with status := .Cancelled, updatedAt := now } }

/-- `InvoiceManager.getInvoice(invoiceId)`: the tuple of public fields (the
encrypted amount is not part of it). -/
def getInvoice (st : State) (invoiceId : Nat) :
    Except Err (Nat × Nat × Nat × String × InvoiceStatus × Nat × Nat) :=
  let invoice := st.invoices invoiceId
  if invoice.sender = 0 then .error (.InvoiceNotFound invoiceId)
  else .ok (invoice.id, invoice.sender, invoice.recipient, invoice.description,
            invoice.status, invoice.createdAt, invoice.updatedAt)

/-- `InvoiceManager.getEncryptedAmount(invoiceId)`: restricted to the invoice's
sender or recipient. -/
def getEncryptedAmount (st : State) (caller invoiceId : Nat) : Except Err Nat :=
  let invoice := st.invoices invoiceId
  if invoice.sender = 0 then .error (.InvoiceNotFound invoiceId)
  else if caller ≠ invoice.sender ∧ caller ≠ invoice.recipient then
    .error (.NotAuthorized caller invoiceId)
  else .ok invoice.encryptedAmount

/-- `InvoiceManager.getSentInvoices(sender)`. -/
def getSentInvoices (st : State) (user : Nat) : List Nat := st.sentInvoices user

/-- `InvoiceManager.getReceivedInvoices(recipient)`. -/
def getReceivedInvoices (st : State) (user : Nat) : List Nat := st.receivedInvoices user

/-- `InvoiceManager.getInvoiceCount()`. -/
def getInvoiceCount (st : State) : Nat := st.invoiceIdCounter

end InvoiceManager

namespace ConfidentialInvoice

/-- Invoice status enum of `ConfidentialInvoice` (four states). -/
inductive InvoiceStatus where
  | Pending
  | Paid
  | Cancelled
  | Disputed
deriving DecidableEq, Repr

/-- The `Invoice` struct of `ConfidentialInvoice`; `encryptedAmount` is the
`euint64` handle, modelled by its 64-bit plaintext value. -/
structure Invoice where
  id : Nat
  sender : Nat
  recipient : Nat
  encryptedAmount : Nat
  description : String
  status : InvoiceStatus
  createdAt : Nat
  dueDate : Nat
deriving DecidableEq, Repr

/-- The all-zero struct a Solidity mapping yields for a never-written key. -/
def zeroInvoice : Invoice :=
  { id := 0, sender := 0, recipient := 0, encryptedAmount := 0, description := "",
    status := .Pending, createdAt := 0, dueDate := 0 }

/-- The custom errors declared by `ConfidentialInvoice`. -/
inductive Err where
  | InvalidRecipient
  | InvoiceNotFound
  | NotAuthorized
  | InvalidStatus
  | InsufficientBalance
deriving DecidableEq, Repr

/-- Contract storage of `ConfidentialInvoice`.  `encryptedBalances` maps a user
to `none` when the `euint64` slot was never written (`FHE.isInitialized` is
false) and to `some v` once it holds a ciphertext of value `v`. -/
structure State where
  encryptedBalances : Nat → Option Nat
  invoiceCounter : Nat
  invoices : Nat → Invoice
  sentInvoices : Nat → List Nat
  receivedInvoices : Nat → List Nat

/-- Storage right after the constructor ran. -/
def initState : State :=
  { encryptedBalances := fun _ => none, invoiceCounter := 0,
    invoices := fun _ => zeroInvoice,
    sentInvoices := fun _ => [], receivedInvoices := fun _ => [] }

/-- `ConfidentialInvoice.depositBalance(encryptedAmount, inputProof)`: adds the
encrypted deposit to the caller's balance, initialising it on first use.  The
function has no revert path. -/
def depositBalance (st : State) (caller extAmount : Nat) : State :=
  let amount := Fhe.fromExternal extAmount
  let newBal :=
    match st.encryptedBalances caller with
    | none => amount
    | some b => Fhe.add b amount
  { st with
    encryptedBalances := Function.update st.encryptedBalances caller (some newBal) }

/-- `ConfidentialInvoice.createInvoice(recipient, encryptedAmount, inputProof,
description, dueDate)`; `dueDate` is stored as given. -/
def createInvoice (st : State) (caller now recipient extAmount : Nat)
    (description : String) (dueDate : Nat) : Except Err (Nat × State) :=
  if recipient = 0 ∨ recipient = caller then .error .InvalidRecipient
  else
    let amount := Fhe.fromExternal extAmount
    let invoiceId := st.invoiceCounter
    let inv : Invoice :=
      { id := invoiceId, sender := caller, recipient := recipient,
        encryptedAmount := amount, description := description, status := .Pending,
        createdAt := now, dueDate := dueDate }
    .ok (invoiceId,
      { st with
        invoiceCounter := st.invoiceCounter + 1,
        invoices := Function.update st.invoices invoiceId inv,
        sentInvoices :=
          Function.update st.sentInvoices caller (st.sentInvoices caller ++ [invoiceId]),
        receivedInvoices :=
          Function.update st.receivedInvoices recipient
            (st.receivedInvoices recipient ++ [invoiceId]) })

/-- `ConfidentialInvoice.payInvoice(invoiceId)`: homomorphically transfers the
invoice amount if the payer's encrypted balance covers it and zero otherwise
(`FHE.ge` + `FHE.select`), then marks the invoice Paid.  The balance updates
are sequential, exactly as in the source: the payer's slot is written before
the sender's slot is read. -/
def payInvoice (st : State) (caller invoiceId : Nat) : Except Err State :=
  let invoice := st.invoices invoiceId
  if invoice.sender = 0 then .error .InvoiceNotFound
  else if invoice.status ≠ .Pending then .error .InvalidStatus
  else if caller ≠ invoice.recipient then .error .NotAuthorized
  else
    match st.encryptedBalances caller with
    | none => .error .InsufficientBalance
    | some payerBalance =>
      let hasEnough := Fhe.ge payerBalance invoice.encryptedAmount
      let amountToTransfer := Fhe.select hasEnough invoice.encryptedAmount 0
      let balances1 :=
        Function.update st.encryptedBalances caller
          (some (Fhe.sub payerBalance amountToTransfer))
      let senderBal :=
        match balances1 invoice.sender with
        | none => amountToTransfer
        | some b => Fhe.add b amountToTransfer
      .ok { st with
        encryptedBalances := Function.update balances1 invoice.sender (some senderBal),
        invoices := Function.update st.invoices invoiceId { invoice with status := .Paid } }

/-- `ConfidentialInvoice.cancelInvoice(invoiceId)` called by `caller`. -/
def cancelInvoice (st : State) (caller invoiceId : Nat) : Except Err State :=
  let invoice := st.invoices invoiceId
  if invoice.sender = 0 then .error .InvoiceNotFound
  else if invoice.status ≠ .Pending then .error .InvalidStatus
  else if caller ≠ invoice.sender then .error .NotAuthorized
  else .ok { st with
    invoices := Function.update st.invoices invoiceId { invoice with status := .Cancelled } }

/-- `ConfidentialInvoice.disputeInvoice(invoiceId)` called by `caller`. -/
def disputeInvoice (st : State) (caller invoiceId : Nat) : Except Err State :=
  let invoice := st.invoices invoiceId
  if invoice.sender = 0 then .error .InvoiceNotFound
  else if invoice.status ≠ .Pending then .error .InvalidStatus
  else if caller ≠ invoice.recipient then .error .NotAuthorized
  else .ok { st with
    invoices := Function.update st.invoices invoiceId { invoice with status := .Disputed } }

/-- `ConfidentialInvoice.getInvoice(invoiceId)`: the tuple of public fields. -/
def getInvoice (st : State) (invoiceId : Nat) :
    Except Err (Nat × Nat × Nat × String × InvoiceStatus × Nat × Nat) :=
  let invoice := st.invoices invoiceId
  if invoice.sender = 0 then .error .InvoiceNotFound
  else .ok (invoice.id, invoice.sender, invoice.recipient, invoice.description,
            invoice.status, invoice.createdAt, invoice.dueDate)

/-- `ConfidentialInvoice.getEncryptedBalance(user)`: only the user may read their
own balance handle. -/
def getEncryptedBalance (st : State) (caller user : Nat) : Except Err (Option Nat) :=
  if caller ≠ user then .error .NotAuthorized
  else .ok (st.encryptedBalances user)

/-- `ConfidentialInvoice.getEncryptedAmount(invoiceId)`: restricted to the
invoice's sender or recipient. -/
def getEncryptedAmount (st : State) (caller invoiceId : Nat) : Except Err Nat :=
  let invoice := st.invoices invoiceId
  if invoice.sender = 0 then .error .InvoiceNotFound
  else if caller ≠ invoice.sender ∧ caller ≠ invoice.recipient then
    .error .NotAuthorized
  else .ok invoice.encryptedAmount

/-- `ConfidentialInvoice.getSentInvoices(user)`. -/
def getSentInvoices (st : State) (user : Nat) : List Nat := st.sentInvoices user

/-- `ConfidentialInvoice.getReceivedInvoices(user)`. -/
def getReceivedInvoices (st : State) (user : Nat) : List Nat := st.receivedInvoices user

/-- `ConfidentialInvoice.getInvoiceCount()`. -/
def getInvoiceCount (st : State) : Nat := st.invoiceCounter

/-- One external transaction against `ConfidentialInvoice`: the state-mutating
entry points with their arguments, msg.sender and (for creation) block.timestamp. -/
inductive Tx where
  | deposit (caller extAmount : Nat)
  | create (caller now recipient extAmount : Nat) (description : String) (dueDate : Nat)
  | pay (caller invoiceId : Nat)
  | cancel (caller invoiceId : Nat)
  | dispute (caller invoiceId : Nat)

/-- msg.sender of a transaction. -/
def Tx.caller : Tx → Nat
  | .deposit c _ => c
  | .create c _ _ _ _ _ => c
  | .pay c _ => c
  | .cancel c _ => c
  | .dispute c _ => c

/-- Executes one transaction, dispatching to the entry point it names. -/
def applyTx (st : State) : Tx → Except Err State
  | .deposit c a => .ok (depositBalance st c a)
  | .create c now r a d dd => (createInvoice st c now r a d dd).map (fun p => p.2)
  | .pay c i => payInvoice st c i
  | .cancel c i => cancelInvoice st c i
  | .dispute c i => disputeInvoice st c i

/-- Contract states reachable from deployment by any sequence of successful
transactions.  `tx.caller ≠ 0` reflects the EVM guarantee that msg.sender is
never the zero address. -/
inductive Reachable : State → Prop where
  | init : Reachable initState
  | step {st st' : State} {tx : Tx} : Reachable st → tx.caller ≠ 0 →
      applyTx st tx = Except.ok st' → Reachable st'

/-- Invariant holding in every reachable state: slots at or above the counter
are untouched; a non-Pending invoice exists; the sent/received index lists only
hold ids of existing invoices with the matching party. -/
def GoodState (st : State) : Prop :=
  (∀ i, st.invoiceCounter ≤ i → st.invoices i = zeroInvoice) ∧
  (∀ i, (st.invoices i).status ≠ InvoiceStatus.Pending → (st.invoices i).sender ≠ 0) ∧
  (∀ a i, i ∈ st.sentInvoices a → (st.invoices i).sender = a ∧ a ≠ 0) ∧
  (∀ a i, i ∈ st.receivedInvoices a →
    (st.invoices i).recipient = a ∧ (st.invoices i).sender ≠ 0)

theorem lt_counter_of_sender_ne {st : State} {i : Nat}
    (h1 : ∀ j, st.invoiceCounter ≤ j → st.invoices j = zeroInvoice)
    (hs : (st.invoices i).sender ≠ 0) : i < st.invoiceCounter := by
  by_contra hc
  push_neg at hc
  have hz := h1 i hc
  rw [hz] at hs
  simp [zeroInvoice] at hs

/-- Success-case destructor for `payInvoice`: the guards that must have passed
and how the new state relates to the old one. -/
theorem payInvoice_ok_elim_conf {st st' : State} {c i : Nat}
    (h : payInvoice st c i = Except.ok st') :
    (st.invoices i).sender ≠ 0 ∧ (st.invoices i).status = InvoiceStatus.Pending ∧
    c = (st.invoices i).recipient ∧
    st'.invoiceCounter = st.invoiceCounter ∧
    st'.invoices = Function.update st.invoices i
      { st.invoices i with status := InvoiceStatus.Paid } ∧
    st'.sentInvoices = st.sentInvoices ∧
    st'.receivedInvoices = st.receivedInvoices ∧
    (∀ a, a ≠ c → a ≠ (st.invoices i).sender →
      st'.encryptedBalances a = st.encryptedBalances a) := by
  simp only [payInvoice] at h
  repeat' split at h
  all_goals first
    | exact Except.noConfusion h
    | (rw [Except.ok.injEq] at h
       subst h
       refine ⟨by assumption, not_not.mp (by assumption), not_not.mp (by assumption),
         rfl, rfl, rfl, rfl, ?_⟩
       intro a hac has
       simp only [Function.update_noteq has, Function.update_noteq hac])

/-- Success-case destructor for `cancelInvoice`. -/
theorem cancelInvoice_ok_elim_conf {st st' : State} {c i : Nat}
    (h : cancelInvoice st c i = Except.ok st') :
    (st.invoices i).sender ≠ 0 ∧ (st.invoices i).status = InvoiceStatus.Pending ∧
    c = (st.invoices i).sender ∧
    st' = { st with
      invoices := Function.update st.invoices i
        ({ st.invoices i with status := InvoiceStatus.Cancelled }) } := by
  simp only [cancelInvoice] at h
  repeat' split at h
  all_goals first
    | exact Except.noConfusion h
    | (rw [Except.ok.injEq] at h
       exact ⟨by assumption, not_not.mp (by assumption), not_not.mp (by assumption), h.symm⟩)

/-- Success-case destructor for `disputeInvoice`. -/
theorem disputeInvoice_ok_elim_conf {st st' : State} {c i : Nat}
    (h : disputeInvoice st c i = Except.ok st') :
    (st.invoices i).sender ≠ 0 ∧ (st.invoices i).status = InvoiceStatus.Pending ∧
    c = (st.invoices i).recipient ∧
    st' = { st with
      invoices := Function.update st.invoices i
        ({ st.invoices i with status := InvoiceStatus.Disputed }) } := by
  simp only [disputeInvoice] at h
  repeat' split at h
  all_goals first
    | exact Except.noConfusion h
    | (rw [Except.ok.injEq] at h
       exact ⟨by assumption, not_not.mp (by assumption), not_not.mp (by assumption), h.symm⟩)

/-- Success-case destructor for `createInvoice`. -/
theorem createInvoice_ok_elim_conf {st st' : State} {c now r a : Nat} {d : String} {dd i0 : Nat}
    (h : createInvoice st c now r a d dd = Except.ok (i0, st')) :
    r ≠ 0 ∧ r ≠ c ∧ i0 = st.invoiceCounter ∧
    st' = { st with
      invoiceCounter := st.invoiceCounter + 1,
      invoices := Function.update st.invoices st.invoiceCounter
        { id := st.invoiceCounter, sender := c, recipient := r,
          encryptedAmount := Fhe.fromExternal a, description := d,
          status := InvoiceStatus.Pending, createdAt := now, dueDate := dd },
      sentInvoices :=
        Function.update st.sentInvoices c (st.sentInvoices c ++ [st.invoiceCounter]),
      receivedInvoices :=
        Function.update st.receivedInvoices r (st.receivedInvoices r ++ [st.invoiceCounter]) } := by
  simp only [createInvoice] at h
  split at h
  · exact Except.noConfusion h
  · rw [Except.ok.injEq, Prod.mk.injEq] at h
    rename_i hg
    push_neg at hg
    exact ⟨hg.1, hg.2, h.1.symm, h.2.symm⟩

theorem goodState_init : GoodState initState := by
  refine ⟨fun i _ => rfl, ?_, ?_, ?_⟩
  · intro i hi
    exact absurd rfl hi
  · intro a i hi
    simp [initState] at hi
  · intro a i hi
    simp [initState] at hi

theorem goodState_deposit {st : State} {c a : Nat} (hg : GoodState st) :
    GoodState (depositBalance st c a) := hg

theorem goodState_create {st st' : State} {c now r a : Nat} {d : String} {dd i0 : Nat}
    (hg : GoodState st) (hc : c ≠ 0)
    (h : createInvoice st c now r a d dd = Except.ok (i0, st')) : GoodState st' := by
  obtain ⟨h1, h2, h3, h4⟩ := hg
  obtain ⟨hr0, _hrc, _hi0, hst⟩ := createInvoice_ok_elim_conf h
  subst hst
  refine ⟨?_, ?_, ?_, ?_⟩
  · intro j hj
    replace hj : st.invoiceCounter + 1 ≤ j := hj
    show Function.update st.invoices st.invoiceCounter _ j = zeroInvoice
    rw [Function.update_noteq (by omega)]
    exact h1 j (by omega)
  · intro j hj
    by_cases hji : j = st.invoiceCounter
    · subst hji
      exact absurd (by
        show (Function.update st.invoices st.invoiceCounter _ st.invoiceCounter).status = _
        rw [Function.update_same]) hj
    · replace hj : (Function.update st.invoices st.invoiceCounter _ j).status ≠
        InvoiceStatus.Pending := hj
      rw [Function.update_noteq hji] at hj
      show (Function.update st.invoices st.invoiceCounter _ j).sender ≠ 0
      rw [Function.update_noteq hji]
      exact h2 j hj
  · intro b j hj
    replace hj : j ∈ Function.update st.sentInvoices c
      (st.sentInvoices c ++ [st.invoiceCounter]) b := hj
    show (Function.update st.invoices st.invoiceCounter _ j).sender = b ∧ b ≠ 0
    by_cases hbc : b = c
    · subst hbc
      rw [Function.update_same] at hj
      rcases List.mem_append.mp hj with hold | hnew
      · obtain ⟨hs, hb0⟩ := h3 b j hold
        have hjlt : j < st.invoiceCounter :=
          lt_counter_of_sender_ne h1 (hs ▸ hb0)
        rw [Function.update_noteq (by omega)]
        exact ⟨hs, hb0⟩
      · have hjc : j = st.invoiceCounter := by simpa using hnew
        subst hjc
        rw [Function.update_same]
        exact ⟨rfl, hc⟩
    · rw [Function.update_noteq hbc] at hj
      obtain ⟨hs, hb0⟩ := h3 b j hj
      have hjlt : j < st.invoiceCounter :=
        lt_counter_of_sender_ne h1 (hs ▸ hb0)
      rw [Function.update_noteq (by omega)]
      exact ⟨hs, hb0⟩
  · intro b j hj
    replace hj : j ∈ Function.update st.receivedInvoices r
      (st.receivedInvoices r ++ [st.invoiceCounter]) b := hj
    show (Function.update st.invoices st.invoiceCounter _ j).recipient = b ∧
      (Function.update st.invoices st.invoiceCounter _ j).sender ≠ 0
    by_cases hbr : b = r
    · subst hbr
      rw [Function.update_same] at hj
      rcases List.mem_append.mp hj with hold | hnew
      · obtain ⟨hrj, hs0⟩ := h4 b j hold
        have hjlt : j < st.invoiceCounter := lt_counter_of_sender_ne h1 hs0
        rw [Function.update_noteq (by omega)]
        exact ⟨hrj, hs0⟩
      · have hjc : j = st.invoiceCounter := by simpa using hnew
        subst hjc
        rw [Function.update_same]
        exact ⟨rfl, hc⟩
    · rw [Function.update_noteq hbr] at hj
      obtain ⟨hrj, hs0⟩ := h4 b j hj
      have hjlt : j < st.invoiceCounter := lt_counter_of_sender_ne h1 hs0
      rw [Function.update_noteq (by omega)]
      exact ⟨hrj, hs0⟩

/-- Preservation of `GoodState` by a status write `Function.update st.invoices i
inv` that keeps the sender and recipient of slot `i` and targets an existing
invoice; covers pay, cancel and dispute. -/
theorem goodState_statusWrite {st : State} (i : Nat) (inv : Invoice)
    (bal : Nat → Option Nat)
    (hg : GoodState st)
    (hs : (st.invoices i).sender ≠ 0)
    (hsender : inv.sender = (st.invoices i).sender)
    (hrecipient : inv.recipient = (st.invoices i).recipient) :
    GoodState { st with
      encryptedBalances := bal,
      invoices := Function.update st.invoices i inv } := by
  obtain ⟨h1, h2, h3, h4⟩ := hg
  have hilt : i < st.invoiceCounter := lt_counter_of_sender_ne h1 hs
  refine ⟨?_, ?_, ?_, ?_⟩
  · intro j hj
    replace hj : st.invoiceCounter ≤ j := hj
    show Function.update st.invoices i inv j = zeroInvoice
    rw [Function.update_noteq (by omega)]
    exact h1 j hj
  · intro j hj
    replace hj : (Function.update st.invoices i inv j).status ≠
      InvoiceStatus.Pending := hj
    show (Function.update st.invoices i inv j).sender ≠ 0
    by_cases hji : j = i
    · subst hji
      rw [Function.update_same, hsender]
      exact hs
    · rw [Function.update_noteq hji] at hj ⊢
      exact h2 j hj
  · intro b j hj
    replace hj : j ∈ st.sentInvoices b := hj
    obtain ⟨hsj, hb0⟩ := h3 b j hj
    show (Function.update st.invoices i inv j).sender = b ∧ b ≠ 0
    by_cases hji : j = i
    · subst hji
      rw [Function.update_same, hsender]
      exact ⟨hsj, hb0⟩
    · rw [Function.update_noteq hji]
      exact ⟨hsj, hb0⟩
  · intro b j hj
    replace hj : j ∈ st.receivedInvoices b := hj
    obtain ⟨hrj, hs0⟩ := h4 b j hj
    show (Function.update st.invoices i inv j).recipient = b ∧
      (Function.update st.invoices i inv j).sender ≠ 0
    by_cases hji : j = i
    · subst hji
      rw [Function.update_same, hsender, hrecipient]
      exact ⟨hrj, hs0⟩
    · rw [Function.update_noteq hji]
      exact ⟨hrj, hs0⟩

theorem goodState_pay {st st' : State} {c i : Nat} (hg : GoodState st)
    (h : payInvoice st c i = Except.ok st') : GoodState st' := by
  obtain ⟨hs, _hp, _hc, hcnt, hinv, hsent, hrecv, _hbal⟩ := payInvoice_ok_elim_conf h
  have := goodState_statusWrite i
    ({ st.invoices i with status := InvoiceStatus.Paid })
    st'.encryptedBalances hg hs rfl rfl
  obtain ⟨g1, g2, g3, g4⟩ := this
  refine ⟨?_, ?_, ?_, ?_⟩
  · intro j hj
    rw [hinv]
    exact g1 j (by rw [hcnt] at hj; exact hj)
  · intro j hj
    rw [hinv] at hj ⊢
    exact g2 j hj
  · intro b j hj
    rw [hsent] at hj
    rw [hinv]
    exact g3 b j hj
  · intro b j hj
    rw [hrecv] at hj
    rw [hinv]
    exact g4 b j hj

theorem goodState_cancel {st st' : State} {c i : Nat} (hg : GoodState st)
    (h : cancelInvoice st c i = Except.ok st') : GoodState st' := by
  obtain ⟨hs, _hp, _hc, hst⟩ := cancelInvoice_ok_elim_conf h
  subst hst
  exact goodState_statusWrite i
    ({ st.invoices i with status := InvoiceStatus.Cancelled })
    st.encryptedBalances hg hs rfl rfl

theorem goodState_dispute {st st' : State} {c i : Nat} (hg : GoodState st)
    (h : disputeInvoice st c i = Except.ok st') : GoodState st' := by
  obtain ⟨hs, _hp, _hc, hst⟩ := disputeInvoice_ok_elim_conf h
  subst hst
  exact goodState_statusWrite i
    ({ st.invoices i with status := InvoiceStatus.Disputed })
    st.encryptedBalances hg hs rfl rfl

/-- Every reachable `ConfidentialInvoice` state satisfies the storage invariant. -/
theorem reachable_goodState {st : State} (h : Reachable st) : GoodState st := by
  induction h with
  | init => exact goodState_init
  | step hr hc happ ih =>
    rename_i st0 st1 tx
    cases tx with
    | deposit c a =>
      simp only [applyTx, Except.ok.injEq] at happ
      subst happ
      exact goodState_deposit ih
    | create c now r a d dd =>
      simp only [applyTx] at happ
      cases hcr : createInvoice st0 c now r a d dd with
      | error e =>
        rw [hcr] at happ
        exact Except.noConfusion happ
      | ok p =>
        obtain ⟨i0, st2⟩ := p
        rw [hcr] at happ
        simp only [Except.map, Except.ok.injEq] at happ
        subst happ
        exact goodState_create ih (by simpa [Tx.caller] using hc) hcr
    | pay c i => exact goodState_pay ih happ
    | cancel c i => exact goodState_cancel ih happ
    | dispute c i => exact goodState_dispute ih happ

end ConfidentialInvoice


namespace SimpleInvoice

theorem payInvoice_notFound_simple {st : State} {c i : Nat}
    (hs : (st.invoices i).sender = 0) :
    payInvoice st c i = Except.error Err.InvoiceNotFound := by
  simp only [payInvoice]
  rw [if_pos hs]

theorem payInvoice_invalidStatus_simple {st : State} {c i : Nat}
    (hs : (st.invoices i).sender ≠ 0)
    (hp : (st.invoices i).status ≠ InvoiceStatus.Pending) :
    payInvoice st c i = Except.error Err.InvalidStatus := by
  simp only [payInvoice]
  rw [if_neg hs, if_pos hp]

theorem payInvoice_notAuthorizedErr_simple {st : State} {c i : Nat}
    (hs : (st.invoices i).sender ≠ 0)
    (hp : (st.invoices i).status = InvoiceStatus.Pending)
    (hc : c ≠ (st.invoices i).recipient) :
    payInvoice st c i = Except.error Err.NotAuthorized := by
  simp only [payInvoice]
  rw [if_neg hs, if_neg (not_not.mpr hp), if_pos hc]

theorem cancelInvoice_notFound_simple {st : State} {c i : Nat}
    (hs : (st.invoices i).sender = 0) :
    cancelInvoice st c i = Except.error Err.InvoiceNotFound := by
  simp only [cancelInvoice]
  rw [if_pos hs]

theorem cancelInvoice_invalidStatus_simple {st : State} {c i : Nat}
    (hs : (st.invoices i).sender ≠ 0)
    (hp : (st.invoices i).status ≠ InvoiceStatus.Pending) :
    cancelInvoice st c i = Except.error Err.InvalidStatus := by
  simp only [cancelInvoice]
  rw [if_neg hs, if_pos hp]

theorem cancelInvoice_notAuthorizedErr_simple {st : State} {c i : Nat}
    (hs : (st.invoices i).sender ≠ 0)
    (hp : (st.invoices i).status = InvoiceStatus.Pending)
    (hc : c ≠ (st.invoices i).sender) :
    cancelInvoice st c i = Except.error Err.NotAuthorized := by
  simp only [cancelInvoice]
  rw [if_neg hs, if_neg (not_not.mpr hp), if_pos hc]

theorem disputeInvoice_notFound_simple {st : State} {c i : Nat}
    (hs : (st.invoices i).sender = 0) :
    disputeInvoice st c i = Except.error Err.InvoiceNotFound := by
  simp only [disputeInvoice]
  rw [if_pos hs]

theorem disputeInvoice_invalidStatus_simple {st : State} {c i : Nat}
    (hs : (st.invoices i).sender ≠ 0)
    (hp : (st.invoices i).status ≠ InvoiceStatus.Pending) :
    disputeInvoice st c i = Except.error Err.InvalidStatus := by
  simp only [disputeInvoice]
  rw [if_neg hs, if_pos hp]

theorem disputeInvoice_notAuthorizedErr_simple {st : State} {c i : Nat}
    (hs : (st.invoices i).sender ≠ 0)
    (hp : (st.invoices i).status = InvoiceStatus.Pending)
    (hc : c ≠ (st.invoices i).recipient) :
    disputeInvoice st c i = Except.error Err.NotAuthorized := by
  simp only [disputeInvoice]
  rw [if_neg hs, if_neg (not_not.mpr hp), if_pos hc]

theorem getInvoice_notFound_simple {st : State} {i : Nat}
    (hs : (st.invoices i).sender = 0) :
    getInvoice st i = Except.error Err.InvoiceNotFound := by
  simp only [getInvoice]
  rw [if_pos hs]

theorem createInvoice_invalidRecipient_simple {st : State} {c now r a : Nat} {d : String}
    {dd : Nat} (hg : r = 0 ∨ r = c) :
    createInvoice st c now r a d dd = Except.error Err.InvalidRecipient := by
  simp only [createInvoice]
  rw [if_pos hg]

end SimpleInvoice

namespace InvoiceManager

theorem payInvoice_notFound_mgr {st : State} {c now i : Nat}
    (hs : (st.invoices i).sender = 0) :
    payInvoice st c now i = Except.error (Err.InvoiceNotFound i) := by
  simp only [payInvoice]
  rw [if_pos hs]

theorem payInvoice_notPending {st : State} {c now i : Nat}
    (hs : (st.invoices i).sender ≠ 0)
    (hp : (st.invoices i).status ≠ InvoiceStatus.Pending) :
    payInvoice st c now i = Except.error (Err.InvoiceNotPending i) := by
  simp only [payInvoice]
  rw [if_neg hs, if_pos hp]

theorem payInvoice_onlyRecipient {st : State} {c now i : Nat}
    (hs : (st.invoices i).sender ≠ 0)
    (hp : (st.invoices i).status = InvoiceStatus.Pending)
    (hc : c ≠ (st.invoices i).recipient) :
    payInvoice st c now i = Except.error (Err.OnlyRecipientCanPay i) := by
  simp only [payInvoice]
  rw [if_neg hs, if_neg (not_not.mpr hp), if_pos hc]

theorem cancelInvoice_notFound_mgr {st : State} {c now i : Nat}
    (hs : (st.invoices i).sender = 0) :
    cancelInvoice st c now i = Except.error (Err.InvoiceNotFound i) := by
  simp only [cancelInvoice]
  rw [if_pos hs]

theorem cancelInvoice_notPending {st : State} {c now i : Nat}
    (hs : (st.invoices i).sender ≠ 0)
    (hp : (st.invoices i).status ≠ InvoiceStatus.Pending) :
    cancelInvoice st c now i = Except.error (Err.InvoiceNotPending i) := by
  simp only [cancelInvoice]
  rw [if_neg hs, if_pos hp]

theorem cancelInvoice_onlySender {st : State} {c now i : Nat}
    (hs : (st.invoices i).sender ≠ 0)
    (hp : (st.invoices i).status = InvoiceStatus.Pending)
    (hc : c ≠ (st.invoices i).sender) :
    cancelInvoice st c now i = Except.error (Err.OnlySenderCanCancel i) := by
  simp only [cancelInvoice]
  rw [if_neg hs, if_neg (not_not.mpr hp), if_pos hc]

theorem getInvoice_notFound_mgr {st : State} {i : Nat}
    (hs : (st.invoices i).sender = 0) :
    getInvoice st i = Except.error (Err.InvoiceNotFound i) := by
  simp only [getInvoice]
  rw [if_pos hs]

theorem createInvoice_invalidRecipient_mgr {st : State} {c now r a : Nat} {d : String}
    (hg : r = 0 ∨ r = c) :
    createInvoice st c now r a d = Except.error (Err.InvalidRecipient r) := by
  simp only [createInvoice]
  rw [if_pos hg]

end InvoiceManager

namespace ConfidentialInvoice

theorem payInvoice_notFound_conf {st : State} {c i : Nat}
    (hs : (st.invoices i).sender = 0) :
    payInvoice st c i = Except.error Err.InvoiceNotFound := by
  simp only [payInvoice]
  rw [if_pos hs]

theorem payInvoice_invalidStatus_conf {st : State} {c i : Nat}
    (hs : (st.invoices i).sender ≠ 0)
    (hp : (st.invoices i).status ≠ InvoiceStatus.Pending) :
    payInvoice st c i = Except.error Err.InvalidStatus := by
  simp only [payInvoice]
  rw [if_neg hs, if_pos hp]

theorem payInvoice_notAuthorizedErr_conf {st : State} {c i : Nat}
    (hs : (st.invoices i).sender ≠ 0)
    (hp : (st.invoices i).status = InvoiceStatus.Pending)
    (hc : c ≠ (st.invoices i).recipient) :
    payInvoice st c i = Except.error Err.NotAuthorized := by
  simp only [payInvoice]
  rw [if_neg hs, if_neg (not_not.mpr hp), if_pos hc]

theorem cancelInvoice_notFound_conf {st : State} {c i : Nat}
    (hs : (st.invoices i).sender = 0) :
    cancelInvoice st c i = Except.error Err.InvoiceNotFound := by
  simp only [cancelInvoice]
  rw [if_pos hs]

theorem cancelInvoice_invalidStatus_conf {st : State} {c i : Nat}
    (hs : (st.invoices i).sender ≠ 0)
    (hp : (st.invoices i).status ≠ InvoiceStatus.Pending) :
    cancelInvoice st c i = Except.error Err.InvalidStatus := by
  simp only [cancelInvoice]
  rw [if_neg hs, if_pos hp]

theorem cancelInvoice_notAuthorizedErr_conf {st : State} {c i : Nat}
    (hs : (st.invoices i).sender ≠ 0)
    (hp : (st.invoices i).status = InvoiceStatus.Pending)
    (hc : c ≠ (st.invoices i).sender) :
    cancelInvoice st c i = Except.error Err.NotAuthorized := by
  simp only [cancelInvoice]
  rw [if_neg hs, if_neg (not_not.mpr hp), if_pos hc]

theorem disputeInvoice_notFound_conf {st : State} {c i : Nat}
    (hs : (st.invoices i).sender = 0) :
    disputeInvoice st c i = Except.error Err.InvoiceNotFound := by
  simp only [disputeInvoice]
  rw [if_pos hs]

theorem disputeInvoice_invalidStatus_conf {st : State} {c i : Nat}
    (hs : (st.invoices i).sender ≠ 0)
    (hp : (st.invoices i).status ≠ InvoiceStatus.Pending) :
    disputeInvoice st c i = Except.error Err.InvalidStatus := by
  simp only [disputeInvoice]
  rw [if_neg hs, if_pos hp]

theorem disputeInvoice_notAuthorizedErr_conf {st : State} {c i : Nat}
    (hs : (st.invoices i).sender ≠ 0)
    (hp : (st.invoices i).status = InvoiceStatus.Pending)
    (hc : c ≠ (st.invoices i).recipient) :
    disputeInvoice st c i = Except.error Err.NotAuthorized := by
  simp only [disputeInvoice]
  rw [if_neg hs, if_neg (not_not.mpr hp), if_pos hc]

theorem getInvoice_notFound_conf {st : State} {i : Nat}
    (hs : (st.invoices i).sender = 0) :
    getInvoice st i = Except.error Err.InvoiceNotFound := by
  simp only [getInvoice]
  rw [if_pos hs]

theorem createInvoice_invalidRecipient_conf {st : State} {c now r a : Nat} {d : String}
    {dd : Nat} (hg : r = 0 ∨ r = c) :
    createInvoice st c now r a d dd = Except.error Err.InvalidRecipient := by
  simp only [createInvoice]
  rw [if_pos hg]

end ConfidentialInvoice

namespace ConfidentialInvoice

/-- Both C1 status conjuncts for a state whose invoice map is the old one with
one status write at `i0`, targeting a Pending invoice and a terminal new status. -/
theorem statusWrite_conjuncts {st : State} {i0 : Nat} {snew : InvoiceStatus}
    (hpend : (st.invoices i0).status = InvoiceStatus.Pending)
    (hterm : snew = InvoiceStatus.Paid ∨ snew = InvoiceStatus.Cancelled ∨
      snew = InvoiceStatus.Disputed)
    (f : Nat → Invoice)
    (hf : f = Function.update st.invoices i0 ({ st.invoices i0 with status := snew }))
    (i : Nat) :
    ((st.invoices i).status ≠ InvoiceStatus.Pending →
      (f i).status = (st.invoices i).status) ∧
    ((f i).status ≠ (st.invoices i).status →
      (st.invoices i).status = InvoiceStatus.Pending ∧
        ((f i).status = InvoiceStatus.Paid ∨ (f i).status = InvoiceStatus.Cancelled ∨
         (f i).status = InvoiceStatus.Disputed)) := by
  subst hf
  by_cases hii : i = i0
  · subst hii
    constructor
    · intro hne
      exact absurd hpend hne
    · intro _
      rw [Function.update_same]
      exact ⟨hpend, hterm⟩
  · rw [Function.update_noteq hii]
    exact ⟨fun _ => rfl, fun hne => absurd rfl hne⟩

end ConfidentialInvoice

/-- C1: in every reachable `ConfidentialInvoice` state, once an invoice's status
is Paid, Cancelled or Disputed no transaction (depositBalance, createInvoice,
payInvoice, cancelInvoice, disputeInvoice) changes it again: every status change
a successful transaction performs goes from Pending to one of the three terminal
states, and pay, cancel or dispute attempted on a non-Pending invoice reverts
with the `InvalidStatus` error. -/
theorem confidential_status_terminal {st : ConfidentialInvoice.State}
    (hr : ConfidentialInvoice.Reachable st) :
    (∀ tx st', ConfidentialInvoice.applyTx st tx = Except.ok st' →
      ∀ i, ((st.invoices i).status ≠ ConfidentialInvoice.InvoiceStatus.Pending →
          (st'.invoices i).status = (st.invoices i).status) ∧
        ((st'.invoices i).status ≠ (st.invoices i).status →
          (st.invoices i).status = ConfidentialInvoice.InvoiceStatus.Pending ∧
            ((st'.invoices i).status = ConfidentialInvoice.InvoiceStatus.Paid ∨
             (st'.invoices i).status = ConfidentialInvoice.InvoiceStatus.Cancelled ∨
             (st'.invoices i).status = ConfidentialInvoice.InvoiceStatus.Disputed))) ∧
    (∀ c i, (st.invoices i).status ≠ ConfidentialInvoice.InvoiceStatus.Pending →
      ConfidentialInvoice.payInvoice st c i =
        Except.error ConfidentialInvoice.Err.InvalidStatus ∧
      ConfidentialInvoice.cancelInvoice st c i =
        Except.error ConfidentialInvoice.Err.InvalidStatus ∧
      ConfidentialInvoice.disputeInvoice st c i =
        Except.error ConfidentialInvoice.Err.InvalidStatus) := by
  obtain ⟨g1, g2, g3, g4⟩ := ConfidentialInvoice.reachable_goodState hr
  constructor
  · intro tx st' happ i
    cases tx with
    | deposit c a =>
      simp only [ConfidentialInvoice.applyTx, Except.ok.injEq] at happ
      subst happ
      exact ⟨fun _ => rfl, fun hne => absurd rfl hne⟩
    | create c now r a d dd =>
      simp only [ConfidentialInvoice.applyTx] at happ
      cases hcr : ConfidentialInvoice.createInvoice st c now r a d dd with
      | error e =>
        rw [hcr] at happ
        exact Except.noConfusion happ
      | ok p =>
        obtain ⟨i0, st2⟩ := p
        rw [hcr] at happ
        simp only [Except.map, Except.ok.injEq] at happ
        subst happ
        obtain ⟨_, _, _, hst⟩ := ConfidentialInvoice.createInvoice_ok_elim_conf hcr
        subst hst
        by_cases hii : i = st.invoiceCounter
        · subst hii
          have hz := g1 st.invoiceCounter le_rfl
          constructor
          · intro hne
            rw [hz] at hne
            exact absurd rfl hne
          · intro hne
            exact absurd (by
              show (Function.update st.invoices st.invoiceCounter _ _).status = _
              rw [Function.update_same, hz]
              rfl) hne
        · have hunch : (Function.update st.invoices st.invoiceCounter
              ({ id := st.invoiceCounter, sender := c, recipient := r,
                 encryptedAmount := Fhe.fromExternal a, description := d,
                 status := ConfidentialInvoice.InvoiceStatus.Pending,
                 createdAt := now, dueDate := dd }) i) = st.invoices i :=
            Function.update_noteq hii _ _
          constructor
          · intro _
            show (Function.update st.invoices st.invoiceCounter _ i).status = _
            rw [hunch]
          · intro hne
            exact absurd (by
              show (Function.update st.invoices st.invoiceCounter _ i).status = _
              rw [hunch]) hne
    | pay c i0 =>
      replace happ : ConfidentialInvoice.payInvoice st c i0 = Except.ok st' := happ
      obtain ⟨_, hp, _, _, hinv, _, _, _⟩ := ConfidentialInvoice.payInvoice_ok_elim_conf happ
      exact ConfidentialInvoice.statusWrite_conjuncts hp (Or.inl rfl) st'.invoices hinv i
    | cancel c i0 =>
      replace happ : ConfidentialInvoice.cancelInvoice st c i0 = Except.ok st' := happ
      obtain ⟨_, hp, _, hst⟩ := ConfidentialInvoice.cancelInvoice_ok_elim_conf happ
      subst hst
      exact ConfidentialInvoice.statusWrite_conjuncts hp (Or.inr (Or.inl rfl)) _ rfl i
    | dispute c i0 =>
      replace happ : ConfidentialInvoice.disputeInvoice st c i0 = Except.ok st' := happ
      obtain ⟨_, hp, _, hst⟩ := ConfidentialInvoice.disputeInvoice_ok_elim_conf happ
      subst hst
      exact ConfidentialInvoice.statusWrite_conjuncts hp (Or.inr (Or.inr rfl)) _ rfl i
  · intro c i hp
    have hs : (st.invoices i).sender ≠ 0 := g2 i hp
    exact ⟨ConfidentialInvoice.payInvoice_invalidStatus_conf hs hp,
      ConfidentialInvoice.cancelInvoice_invalidStatus_conf hs hp,
      ConfidentialInvoice.disputeInvoice_invalidStatus_conf hs hp⟩

/-- Example `ConfidentialInvoice` state: address 1 created invoice 0 for
recipient 2 (amount 50, createdAt 100, dueDate 0). -/
def exConfSt1 : ConfidentialInvoice.State :=
  { encryptedBalances := fun _ => none,
    invoiceCounter := 1,
    invoices := Function.update (fun _ => ConfidentialInvoice.zeroInvoice) 0
      ({ id := 0, sender := 1, recipient := 2, encryptedAmount := Fhe.fromExternal 50,
         description := "rent", status := ConfidentialInvoice.InvoiceStatus.Pending,
         createdAt := 100, dueDate := 0 }),
    sentInvoices := Function.update (fun _ => []) 1 [0],
    receivedInvoices := Function.update (fun _ => []) 2 [0] }

/-- `exConfSt1` after the sender cancelled invoice 0. -/
def exConfSt2 : ConfidentialInvoice.State :=
  { exConfSt1 with
    invoices := Function.update exConfSt1.invoices 0
      ({ exConfSt1.invoices 0 with status := ConfidentialInvoice.InvoiceStatus.Cancelled }) }

theorem exConfSt1_reachable : ConfidentialInvoice.Reachable exConfSt1 := by
  have h1 : ConfidentialInvoice.applyTx ConfidentialInvoice.initState
      (ConfidentialInvoice.Tx.create 1 100 2 50 "rent" 0) = Except.ok exConfSt1 := rfl
  exact ConfidentialInvoice.Reachable.step ConfidentialInvoice.Reachable.init
    (by decide) h1

theorem exConfSt2_reachable : ConfidentialInvoice.Reachable exConfSt2 := by
  have h2 : ConfidentialInvoice.applyTx exConfSt1
      (ConfidentialInvoice.Tx.cancel 1 0) = Except.ok exConfSt2 := rfl
  exact ConfidentialInvoice.Reachable.step exConfSt1_reachable (by decide) h2

/-- Witness for C1 at the reachable state `exConfSt2`, whose invoice 0 is
Cancelled: all three transitions on it revert with `InvalidStatus`, and a
successful deposit leaves its status untouched. -/
theorem confidential_status_terminal_witness :
    ConfidentialInvoice.payInvoice exConfSt2 3 0 =
      Except.error ConfidentialInvoice.Err.InvalidStatus ∧
    ConfidentialInvoice.cancelInvoice exConfSt2 3 0 =
      Except.error ConfidentialInvoice.Err.InvalidStatus ∧
    ConfidentialInvoice.disputeInvoice exConfSt2 3 0 =
      Except.error ConfidentialInvoice.Err.InvalidStatus ∧
    ((ConfidentialInvoice.depositBalance exConfSt2 3 7).invoices 0).status =
      ConfidentialInvoice.InvoiceStatus.Cancelled := by
  have h := confidential_status_terminal exConfSt2_reachable
  obtain ⟨hpay, hcancel, hdispute⟩ := h.2 3 0 (by decide)
  have hdep := (h.1 (ConfidentialInvoice.Tx.deposit 3 7)
    (ConfidentialInvoice.depositBalance exConfSt2 3 7) rfl 0).1 (by decide)
  exact ⟨hpay, hcancel, hdispute, by rw [hdep]; decide⟩

namespace SimpleInvoice

/-- Success-case destructor for the plaintext `createInvoice`. -/
theorem createInvoice_ok_elim_simple {st st' : State} {c now r amt : Nat} {d : String}
    {dd i0 : Nat} (h : createInvoice st c now r amt d dd = Except.ok (i0, st')) :
    r ≠ 0 ∧ r ≠ c ∧ amt ≠ 0 ∧ i0 = st.invoiceCounter ∧
    st' = {
      invoiceCounter := st.invoiceCounter + 1,
      invoices := Function.update st.invoices st.invoiceCounter
        ({ id := st.invoiceCounter, sender := c, recipient := r, amount := amt,
           description := d, status := InvoiceStatus.Pending, createdAt := now,
           dueDate := if dd = 0 then now + 30 * 86400 else dd }),
      sentInvoices :=
        Function.update st.sentInvoices c (st.sentInvoices c ++ [st.invoiceCounter]),
      receivedInvoices :=
        Function.update st.receivedInvoices r (st.receivedInvoices r ++ [st.invoiceCounter]) } := by
  simp only [createInvoice] at h
  by_cases h1 : r = 0 ∨ r = c
  · rw [if_pos h1] at h
    exact Except.noConfusion h
  · rw [if_neg h1] at h
    by_cases h2 : amt = 0
    · rw [if_pos h2] at h
      exact Except.noConfusion h
    · rw [if_neg h2] at h
      rw [Except.ok.injEq, Prod.mk.injEq] at h
      push_neg at h1
      exact ⟨h1.1, h1.2, h2, h.1.symm, h.2.symm⟩

/-- Success-case destructor for the plaintext `payInvoice`. -/
theorem payInvoice_ok_elim_simple {st st' : State} {c i : Nat}
    (h : payInvoice st c i = Except.ok st') :
    (st.invoices i).sender ≠ 0 ∧ (st.invoices i).status = InvoiceStatus.Pending ∧
    c = (st.invoices i).recipient ∧
    st' = { st with
      invoices := Function.update st.invoices i
        ({ st.invoices i with status := InvoiceStatus.Paid }) } := by
  simp only [payInvoice] at h
  repeat' split at h
  all_goals first
    | exact Except.noConfusion h
    | (rw [Except.ok.injEq] at h
       exact ⟨by assumption, not_not.mp (by assumption), not_not.mp (by assumption), h.symm⟩)

/-- Success-case destructor for the plaintext `cancelInvoice`. -/
theorem cancelInvoice_ok_elim_simple {st st' : State} {c i : Nat}
    (h : cancelInvoice st c i = Except.ok st') :
    (st.invoices i).sender ≠ 0 ∧ (st.invoices i).status = InvoiceStatus.Pending ∧
    c = (st.invoices i).sender ∧
    st' = { st with
      invoices := Function.update st.invoices i
        ({ st.invoices i with status := InvoiceStatus.Cancelled }) } := by
  simp only [cancelInvoice] at h
  repeat' split at h
  all_goals first
    | exact Except.noConfusion h
    | (rw [Except.ok.injEq] at h
       exact ⟨by assumption, not_not.mp (by assumption), not_not.mp (by assumption), h.symm⟩)

/-- Success-case destructor for the plaintext `disputeInvoice`. -/
theorem disputeInvoice_ok_elim_simple {st st' : State} {c i : Nat}
    (h : disputeInvoice st c i = Except.ok st') :
    (st.invoices i).sender ≠ 0 ∧ (st.invoices i).status = InvoiceStatus.Pending ∧
    c = (st.invoices i).recipient ∧
    st' = { st with
      invoices := Function.update st.invoices i
        ({ st.invoices i with status := InvoiceStatus.Disputed }) } := by
  simp only [disputeInvoice] at h
  repeat' split at h
  all_goals first
    | exact Except.noConfusion h
    | (rw [Except.ok.injEq] at h
       exact ⟨by assumption, not_not.mp (by assumption), not_not.mp (by assumption), h.symm⟩)

end SimpleInvoice

namespace InvoiceManager

/-- Success-case destructor for `InvoiceManager.createInvoice`. -/
theorem createInvoice_ok_elim_mgr {st st' : State} {c now r ea : Nat} {d : String}
    {i0 : Nat} (h : createInvoice st c now r ea d = Except.ok (i0, st')) :
    r ≠ 0 ∧ r ≠ c ∧ i0 = st.invoiceIdCounter ∧
    st' = {
      invoiceIdCounter := st.invoiceIdCounter + 1,
      invoices := Function.update st.invoices st.invoiceIdCounter
        ({ id := st.invoiceIdCounter, sender := c, recipient := r,
           encryptedAmount := Fhe.fromExternal ea, description := d,
           status := InvoiceStatus.Pending, createdAt := now, updatedAt := now }),
      sentInvoices :=
        Function.update st.sentInvoices c (st.sentInvoices c ++ [st.invoiceIdCounter]),
      receivedInvoices :=
        Function.update st.receivedInvoices r
          (st.receivedInvoices r ++ [st.invoiceIdCounter]) } := by
  simp only [createInvoice] at h
  by_cases h1 : r = 0 ∨ r = c
  · rw [if_pos h1] at h
    exact Except.noConfusion h
  · rw [if_neg h1] at h
    rw [Except.ok.injEq, Prod.mk.injEq] at h
    push_neg at h1
    exact ⟨h1.1, h1.2, h.1.symm, h.2.symm⟩

/-- Success-case destructor for `InvoiceManager.payInvoice`. -/
theorem payInvoice_ok_elim_mgr {st st' : State} {c now i : Nat}
    (h : payInvoice st c now i = Except.ok st') :
    (st.invoices i).sender ≠ 0 ∧ (st.invoices i).status = InvoiceStatus.Pending ∧
    c = (st.invoices i).recipient ∧
    st' = { st with
      invoices := Function.update st.invoices i
        ({ st.invoices i with status := InvoiceStatus.Paid, updatedAt := now }) } := by
  simp only [payInvoice] at h
  repeat' split at h
  all_goals first
    | exact Except.noConfusion h
    | (rw [Except.ok.injEq] at h
       exact ⟨by assumption, not_not.mp (by assumption), not_not.mp (by assumption), h.symm⟩)

/-- Success-case destructor for `InvoiceManager.cancelInvoice`. -/
theorem cancelInvoice_ok_elim_mgr {st st' : State} {c now i : Nat}
    (h : cancelInvoice st c now i = Except.ok st') :
    (st.invoices i).sender ≠ 0 ∧ (st.invoices i).status = InvoiceStatus.Pending ∧
    c = (st.invoices i).sender ∧
    st' = { st with
      invoices := Function.update st.invoices i
        ({ st.invoices i with status := InvoiceStatus.Cancelled, updatedAt := now }) } := by
  simp only [cancelInvoice] at h
  repeat' split at h
  all_goals first
    | exact Except.noConfusion h
    | (rw [Except.ok.injEq] at h
       exact ⟨by assumption, not_not.mp (by assumption), not_not.mp (by assumption), h.symm⟩)

end InvoiceManager

/-- C2: a successful creation returns the pre-call invoice count as the new id,
increments the count by exactly one, appends the new id to the caller's
sent-list and the recipient's received-list, and stores an invoice with
sender = caller, the given recipient and description, and status Pending — in
the plaintext variant (which additionally requires a non-zero amount) and in
the `InvoiceManager` encrypted variant. -/
theorem createInvoice_postconditions
    (sst : SimpleInvoice.State) (mst : InvoiceManager.State)
    (c now r amt ea : Nat) (d : String) (dd : Nat)
    (hr0 : r ≠ 0) (hrc : r ≠ c) :
    (amt ≠ 0 → ∃ sst₂,
      SimpleInvoice.createInvoice sst c now r amt d dd =
        Except.ok (SimpleInvoice.getInvoiceCount sst, sst₂) ∧
      SimpleInvoice.getInvoiceCount sst₂ = SimpleInvoice.getInvoiceCount sst + 1 ∧
      SimpleInvoice.getSentInvoices sst₂ c =
        SimpleInvoice.getSentInvoices sst c ++ [SimpleInvoice.getInvoiceCount sst] ∧
      SimpleInvoice.getReceivedInvoices sst₂ r =
        SimpleInvoice.getReceivedInvoices sst r ++ [SimpleInvoice.getInvoiceCount sst] ∧
      (sst₂.invoices (SimpleInvoice.getInvoiceCount sst)).sender = c ∧
      (sst₂.invoices (SimpleInvoice.getInvoiceCount sst)).recipient = r ∧
      (sst₂.invoices (SimpleInvoice.getInvoiceCount sst)).description = d ∧
      (sst₂.invoices (SimpleInvoice.getInvoiceCount sst)).status =
        SimpleInvoice.InvoiceStatus.Pending) ∧
    (∃ mst₂,
      InvoiceManager.createInvoice mst c now r ea d =
        Except.ok (InvoiceManager.getInvoiceCount mst, mst₂) ∧
      InvoiceManager.getInvoiceCount mst₂ = InvoiceManager.getInvoiceCount mst + 1 ∧
      InvoiceManager.getSentInvoices mst₂ c =
        InvoiceManager.getSentInvoices mst c ++ [InvoiceManager.getInvoiceCount mst] ∧
      InvoiceManager.getReceivedInvoices mst₂ r =
        InvoiceManager.getReceivedInvoices mst r ++ [InvoiceManager.getInvoiceCount mst] ∧
      (mst₂.invoices (InvoiceManager.getInvoiceCount mst)).sender = c ∧
      (mst₂.invoices (InvoiceManager.getInvoiceCount mst)).recipient = r ∧
      (mst₂.invoices (InvoiceManager.getInvoiceCount mst)).description = d ∧
      (mst₂.invoices (InvoiceManager.getInvoiceCount mst)).status =
        InvoiceManager.InvoiceStatus.Pending) := by
  have hg : ¬(r = 0 ∨ r = c) := fun h => h.elim hr0 hrc
  constructor
  · intro ha
    obtain ⟨p, hp⟩ : ∃ p, SimpleInvoice.createInvoice sst c now r amt d dd =
        Except.ok p := by
      simp only [SimpleInvoice.createInvoice]
      rw [if_neg hg, if_neg ha]
      exact ⟨_, rfl⟩
    obtain ⟨i0, st2⟩ := p
    obtain ⟨_, _, _, hi0, hst⟩ := SimpleInvoice.createInvoice_ok_elim_simple hp
    subst hst
    subst hi0
    refine ⟨_, hp, rfl, ?_, ?_, ?_, ?_, ?_, ?_⟩
    · exact Function.update_same _ _ _
    · exact Function.update_same _ _ _
    · show (Function.update sst.invoices sst.invoiceCounter _ sst.invoiceCounter).sender = c
      rw [Function.update_same]
    · show (Function.update sst.invoices sst.invoiceCounter _
        sst.invoiceCounter).recipient = r
      rw [Function.update_same]
    · show (Function.update sst.invoices sst.invoiceCounter _
        sst.invoiceCounter).description = d
      rw [Function.update_same]
    · show (Function.update sst.invoices sst.invoiceCounter _ sst.invoiceCounter).status = _
      rw [Function.update_same]
  · obtain ⟨p, hp⟩ : ∃ p, InvoiceManager.createInvoice mst c now r ea d =
        Except.ok p := by
      simp only [InvoiceManager.createInvoice]
      rw [if_neg hg]
      exact ⟨_, rfl⟩
    obtain ⟨i0, st2⟩ := p
    obtain ⟨_, _, hi0, hst⟩ := InvoiceManager.createInvoice_ok_elim_mgr hp
    subst hst
    subst hi0
    refine ⟨_, hp, rfl, ?_, ?_, ?_, ?_, ?_, ?_⟩
    · exact Function.update_same _ _ _
    · exact Function.update_same _ _ _
    · show (Function.update mst.invoices mst.invoiceIdCounter _
        mst.invoiceIdCounter).sender = c
      rw [Function.update_same]
    · show (Function.update mst.invoices mst.invoiceIdCounter _
        mst.invoiceIdCounter).recipient = r
      rw [Function.update_same]
    · show (Function.update mst.invoices mst.invoiceIdCounter _
        mst.invoiceIdCounter).description = d
      rw [Function.update_same]
    · show (Function.update mst.invoices mst.invoiceIdCounter _
        mst.invoiceIdCounter).status = _
      rw [Function.update_same]

/-- Witness for C2 on the freshly deployed contracts: creating an invoice from
address 1 to address 2 returns id 0 and leaves a count of 1 in both variants. -/
theorem createInvoice_postconditions_witness :
    (SimpleInvoice.createInvoice SimpleInvoice.initState 1 100 2 100 "rent" 0).map
      Prod.fst = Except.ok 0 ∧
    (SimpleInvoice.createInvoice SimpleInvoice.initState 1 100 2 100 "rent" 0).map
      (fun p => SimpleInvoice.getInvoiceCount p.2) = Except.ok 1 ∧
    (InvoiceManager.createInvoice InvoiceManager.initState 1 100 2 50 "rent").map
      Prod.fst = Except.ok 0 ∧
    (InvoiceManager.createInvoice InvoiceManager.initState 1 100 2 50 "rent").map
      (fun p => InvoiceManager.getInvoiceCount p.2) = Except.ok 1 := by
  have h := createInvoice_postconditions SimpleInvoice.initState InvoiceManager.initState
    1 100 2 100 50 "rent" 0 (by decide) (by decide)
  obtain ⟨sst₂, hsok, hscnt, _⟩ := h.1 (by decide)
  obtain ⟨mst₂, hmok, hmcnt, _⟩ := h.2
  refine ⟨?_, ?_, ?_, ?_⟩
  · rw [hsok]
    rfl
  · rw [hsok]
    show Except.ok (SimpleInvoice.getInvoiceCount sst₂) = _
    rw [hscnt]
    rfl
  · rw [hmok]
    rfl
  · rw [hmok]
    show Except.ok (InvoiceManager.getInvoiceCount mst₂) = _
    rw [hmcnt]
    rfl

/-- C3: in `ConfidentialInvoice`, with the FHE primitives modelled as exact
64-bit arithmetic, a recipient of a Pending invoice whose encrypted balance `b`
is strictly below the invoice amount still pays successfully: the call returns
ok, the status becomes Paid, and both the payer's and the invoice sender's
balance values are unchanged (the selected transfer amount is zero). -/
theorem confidential_pay_insufficient_balance
    {st : ConfidentialInvoice.State} {c i b : Nat}
    (hs : (st.invoices i).sender ≠ 0)
    (hp : (st.invoices i).status = ConfidentialInvoice.InvoiceStatus.Pending)
    (hc : c = (st.invoices i).recipient)
    (hb : st.encryptedBalances c = some b)
    (hlt : b < (st.invoices i).encryptedAmount)
    (hbW : b < Fhe.W)
    (hsW : (st.encryptedBalances (st.invoices i).sender).getD 0 < Fhe.W) :
    ∃ st', ConfidentialInvoice.payInvoice st c i = Except.ok st' ∧
      (st'.invoices i).status = ConfidentialInvoice.InvoiceStatus.Paid ∧
      (st'.encryptedBalances c).getD 0 = (st.encryptedBalances c).getD 0 ∧
      (st'.encryptedBalances (st.invoices i).sender).getD 0 =
        (st.encryptedBalances (st.invoices i).sender).getD 0 := by
  have hge : Fhe.ge b (st.invoices i).encryptedAmount = false := by
    simp only [Fhe.ge, decide_eq_false_iff_not]
    omega
  have hok : ConfidentialInvoice.payInvoice st c i = Except.ok
      { st with
        encryptedBalances :=
          Function.update
            (Function.update st.encryptedBalances c (some (Fhe.sub b 0)))
            (st.invoices i).sender
            (some (match Function.update st.encryptedBalances c
                (some (Fhe.sub b 0)) (st.invoices i).sender with
              | none => 0
              | some x => Fhe.add x 0)),
        invoices := Function.update st.invoices i
          ({ st.invoices i with status := ConfidentialInvoice.InvoiceStatus.Paid }) } := by
    simp only [ConfidentialInvoice.payInvoice]
    rw [if_neg hs, if_neg (not_not.mpr hp), if_neg (not_not.mpr hc), hb]
    simp only [Fhe.select, hge, Bool.false_eq_true, if_false]
  refine ⟨_, hok, ?_, ?_, ?_⟩
  · show (Function.update st.invoices i _ i).status = _
    rw [Function.update_same]
  · show (Function.update (Function.update st.encryptedBalances c
      (some (Fhe.sub b 0))) (st.invoices i).sender _ c).getD 0 = _
    rw [Fhe.sub_zero_of_lt hbW]
    by_cases hsc : (st.invoices i).sender = c
    · rw [hsc, Function.update_same, Function.update_same, hb]
      show Fhe.add b 0 = b
      exact Fhe.add_zero_of_lt hbW
    · rw [Function.update_noteq (fun hcs => hsc hcs.symm), Function.update_same, hb]
  · show (Function.update (Function.update st.encryptedBalances c
      (some (Fhe.sub b 0))) (st.invoices i).sender _ (st.invoices i).sender).getD 0 = _
    rw [Function.update_same, Fhe.sub_zero_of_lt hbW]
    by_cases hsc : (st.invoices i).sender = c
    · rw [hsc, Function.update_same, hb]
      show Fhe.add b 0 = b
      exact Fhe.add_zero_of_lt hbW
    · rw [Function.update_noteq hsc]
      cases hsb : st.encryptedBalances (st.invoices i).sender with
      | none => rfl
      | some s =>
        rw [hsb] at hsW
        show Fhe.add s 0 = s
        exact Fhe.add_zero_of_lt (by simpa using hsW)

/-- Example `ConfidentialInvoice` state for C3: `exConfSt1` after recipient 2
deposited an encrypted balance of 5 (less than the invoice amount 50). -/
def exConfSt3 : ConfidentialInvoice.State :=
  { exConfSt1 with
    encryptedBalances := Function.update (fun _ => none) 2 (some 5) }

/-- Witness for C3: recipient 2 with balance 5 pays invoice 0 (amount 50); the
call succeeds, the status flips to Paid and both balance values are unchanged. -/
theorem confidential_pay_insufficient_balance_witness :
    ∃ st', ConfidentialInvoice.payInvoice exConfSt3 2 0 = Except.ok st' ∧
      (st'.invoices 0).status = ConfidentialInvoice.InvoiceStatus.Paid ∧
      (st'.encryptedBalances 2).getD 0 = (exConfSt3.encryptedBalances 2).getD 0 ∧
      (st'.encryptedBalances (exConfSt3.invoices 0).sender).getD 0 =
        (exConfSt3.encryptedBalances (exConfSt3.invoices 0).sender).getD 0 :=
  @confidential_pay_insufficient_balance exConfSt3 2 0 5 (by decide) (by decide)
    (by decide) (by decide) (by decide) (by decide) (by decide)

/-- Example `SimpleInvoice` state: invoice 0 from sender 1 to recipient 2,
amount 100, still Pending. -/
def exSimpleSt1 : SimpleInvoice.State :=
  { invoiceCounter := 1,
    invoices := Function.update (fun _ => SimpleInvoice.zeroInvoice) 0
      ({ id := 0, sender := 1, recipient := 2, amount := 100, description := "rent",
         status := SimpleInvoice.InvoiceStatus.Pending, createdAt := 5, dueDate := 9 }),
    sentInvoices := Function.update (fun _ => []) 1 [0],
    receivedInvoices := Function.update (fun _ => []) 2 [0] }

/-- `exSimpleSt1` with invoice 0 already Paid. -/
def exSimpleStPaid : SimpleInvoice.State :=
  { exSimpleSt1 with
    invoices := Function.update exSimpleSt1.invoices 0
      ({ exSimpleSt1.invoices 0 with status := SimpleInvoice.InvoiceStatus.Paid }) }

/-- Example `InvoiceManager` state: invoice 0 from sender 1 to recipient 2,
still Pending. -/
def exIMSt1 : InvoiceManager.State :=
  { invoiceIdCounter := 1,
    invoices := Function.update (fun _ => InvoiceManager.zeroInvoice) 0
      ({ id := 0, sender := 1, recipient := 2, encryptedAmount := 50,
         description := "rent", status := InvoiceManager.InvoiceStatus.Pending,
         createdAt := 5, updatedAt := 5 }),
    sentInvoices := Function.update (fun _ => []) 1 [0],
    receivedInvoices := Function.update (fun _ => []) 2 [0] }

/-- Counterexample to C4 as stated: invoice 0 of `exSimpleStPaid` exists
(sender 1 ≠ 0) and caller 3 is not its recipient, yet `payInvoice` fails with
`InvalidStatus`, not with the authorization error — the status guard runs
before the caller guard. -/
theorem unauthorized_error_counterexample :
    (exSimpleStPaid.invoices 0).sender ≠ 0 ∧
    (3 : Nat) ≠ (exSimpleStPaid.invoices 0).recipient ∧
    SimpleInvoice.payInvoice exSimpleStPaid 3 0 =
      Except.error SimpleInvoice.Err.InvalidStatus ∧
    SimpleInvoice.payInvoice exSimpleStPaid 3 0 ≠
      Except.error SimpleInvoice.Err.NotAuthorized := by
  refine ⟨by decide, by decide, rfl, ?_⟩
  intro hcontra
  rw [show SimpleInvoice.payInvoice exSimpleStPaid 3 0 =
    Except.error SimpleInvoice.Err.InvalidStatus from rfl] at hcontra
  exact absurd (Except.error.inj hcontra) (by decide)

/-- C4 (amended): for every existing **Pending** invoice, a caller other than
the recipient fails to pay (or, where present, dispute) with the authorization
error, and a caller other than the sender fails to cancel with the
authorization error, in all three variants.  (The Pending restriction is forced
by the guard order: on a non-Pending invoice the status guard fires first.) -/
theorem unauthorized_error_on_pending :
    (∀ (st : SimpleInvoice.State) (c i : Nat),
      (st.invoices i).sender ≠ 0 →
      (st.invoices i).status = SimpleInvoice.InvoiceStatus.Pending →
      (c ≠ (st.invoices i).recipient →
        SimpleInvoice.payInvoice st c i = Except.error SimpleInvoice.Err.NotAuthorized ∧
        SimpleInvoice.disputeInvoice st c i =
          Except.error SimpleInvoice.Err.NotAuthorized) ∧
      (c ≠ (st.invoices i).sender →
        SimpleInvoice.cancelInvoice st c i =
          Except.error SimpleInvoice.Err.NotAuthorized)) ∧
    (∀ (st : InvoiceManager.State) (c now i : Nat),
      (st.invoices i).sender ≠ 0 →
      (st.invoices i).status = InvoiceManager.InvoiceStatus.Pending →
      (c ≠ (st.invoices i).recipient →
        InvoiceManager.payInvoice st c now i =
          Except.error (InvoiceManager.Err.OnlyRecipientCanPay i)) ∧
      (c ≠ (st.invoices i).sender →
        InvoiceManager.cancelInvoice st c now i =
          Except.error (InvoiceManager.Err.OnlySenderCanCancel i))) ∧
    (∀ (st : ConfidentialInvoice.State) (c i : Nat),
      (st.invoices i).sender ≠ 0 →
      (st.invoices i).status = ConfidentialInvoice.InvoiceStatus.Pending →
      (c ≠ (st.invoices i).recipient →
        ConfidentialInvoice.payInvoice st c i =
          Except.error ConfidentialInvoice.Err.NotAuthorized ∧
        ConfidentialInvoice.disputeInvoice st c i =
          Except.error ConfidentialInvoice.Err.NotAuthorized) ∧
      (c ≠ (st.invoices i).sender →
        ConfidentialInvoice.cancelInvoice st c i =
          Except.error ConfidentialInvoice.Err.NotAuthorized)) := by
  refine ⟨?_, ?_, ?_⟩
  · intro st c i hs hp
    exact ⟨fun hc => ⟨SimpleInvoice.payInvoice_notAuthorizedErr_simple hs hp hc,
        SimpleInvoice.disputeInvoice_notAuthorizedErr_simple hs hp hc⟩,
      fun hc => SimpleInvoice.cancelInvoice_notAuthorizedErr_simple hs hp hc⟩
  · intro st c now i hs hp
    exact ⟨fun hc => InvoiceManager.payInvoice_onlyRecipient hs hp hc,
      fun hc => InvoiceManager.cancelInvoice_onlySender hs hp hc⟩
  · intro st c i hs hp
    exact ⟨fun hc => ⟨ConfidentialInvoice.payInvoice_notAuthorizedErr_conf hs hp hc,
        ConfidentialInvoice.disputeInvoice_notAuthorizedErr_conf hs hp hc⟩,
      fun hc => ConfidentialInvoice.cancelInvoice_notAuthorizedErr_conf hs hp hc⟩

/-- Witness for the amended C4: the outsider address 3 (neither sender 1 nor
recipient 2 of the Pending invoice 0) gets the authorization error from every
transition in every variant. -/
theorem unauthorized_error_on_pending_witness :
    SimpleInvoice.payInvoice exSimpleSt1 3 0 =
      Except.error SimpleInvoice.Err.NotAuthorized ∧
    SimpleInvoice.disputeInvoice exSimpleSt1 3 0 =
      Except.error SimpleInvoice.Err.NotAuthorized ∧
    SimpleInvoice.cancelInvoice exSimpleSt1 3 0 =
      Except.error SimpleInvoice.Err.NotAuthorized ∧
    InvoiceManager.payInvoice exIMSt1 3 77 0 =
      Except.error (InvoiceManager.Err.OnlyRecipientCanPay 0) ∧
    InvoiceManager.cancelInvoice exIMSt1 3 77 0 =
      Except.error (InvoiceManager.Err.OnlySenderCanCancel 0) ∧
    ConfidentialInvoice.payInvoice exConfSt1 3 0 =
      Except.error ConfidentialInvoice.Err.NotAuthorized ∧
    ConfidentialInvoice.disputeInvoice exConfSt1 3 0 =
      Except.error ConfidentialInvoice.Err.NotAuthorized ∧
    ConfidentialInvoice.cancelInvoice exConfSt1 3 0 =
      Except.error ConfidentialInvoice.Err.NotAuthorized := by
  obtain ⟨hsimple, him, hconf⟩ := unauthorized_error_on_pending
  obtain ⟨hsp, hsc⟩ := hsimple exSimpleSt1 3 0 (by decide) (by decide)
  obtain ⟨hsp1, hsp2⟩ := hsp (by decide)
  obtain ⟨hmp, hmc⟩ := him exIMSt1 3 77 0 (by decide) (by decide)
  obtain ⟨hcp, hcc⟩ := hconf exConfSt1 3 0 (by decide) (by decide)
  obtain ⟨hcp1, hcp2⟩ := hcp (by decide)
  exact ⟨hsp1, hsp2, hsc (by decide), hmp (by decide), hmc (by decide),
    hcp1, hcp2, hcc (by decide)⟩

/-- C5: for an id whose stored sender is the zero address (a never-assigned
slot), pay, cancel, dispute and getInvoice all fail with the not-found error in
every variant (`InvoiceManager` has no dispute entry point).  A reverting call
leaves the state unchanged by construction of the `Except` embedding. -/
theorem missing_invoice_not_found :
    (∀ (st : SimpleInvoice.State) (c i : Nat), (st.invoices i).sender = 0 →
      SimpleInvoice.payInvoice st c i = Except.error SimpleInvoice.Err.InvoiceNotFound ∧
      SimpleInvoice.cancelInvoice st c i =
        Except.error SimpleInvoice.Err.InvoiceNotFound ∧
      SimpleInvoice.disputeInvoice st c i =
        Except.error SimpleInvoice.Err.InvoiceNotFound ∧
      SimpleInvoice.getInvoice st i = Except.error SimpleInvoice.Err.InvoiceNotFound) ∧
    (∀ (st : InvoiceManager.State) (c now i : Nat), (st.invoices i).sender = 0 →
      InvoiceManager.payInvoice st c now i =
        Except.error (InvoiceManager.Err.InvoiceNotFound i) ∧
      InvoiceManager.cancelInvoice st c now i =
        Except.error (InvoiceManager.Err.InvoiceNotFound i) ∧
      InvoiceManager.getInvoice st i =
        Except.error (InvoiceManager.Err.InvoiceNotFound i)) ∧
    (∀ (st : ConfidentialInvoice.State) (c i : Nat), (st.invoices i).sender = 0 →
      ConfidentialInvoice.payInvoice st c i =
        Except.error ConfidentialInvoice.Err.InvoiceNotFound ∧
      ConfidentialInvoice.cancelInvoice st c i =
        Except.error ConfidentialInvoice.Err.InvoiceNotFound ∧
      ConfidentialInvoice.disputeInvoice st c i =
        Except.error ConfidentialInvoice.Err.InvoiceNotFound ∧
      ConfidentialInvoice.getInvoice st i =
        Except.error ConfidentialInvoice.Err.InvoiceNotFound) := by
  refine ⟨?_, ?_, ?_⟩
  · intro st c i hs
    exact ⟨SimpleInvoice.payInvoice_notFound_simple hs, SimpleInvoice.cancelInvoice_notFound_simple hs,
      SimpleInvoice.disputeInvoice_notFound_simple hs, SimpleInvoice.getInvoice_notFound_simple hs⟩
  · intro st c now i hs
    exact ⟨InvoiceManager.payInvoice_notFound_mgr hs, InvoiceManager.cancelInvoice_notFound_mgr hs,
      InvoiceManager.getInvoice_notFound_mgr hs⟩
  · intro st c i hs
    exact ⟨ConfidentialInvoice.payInvoice_notFound_conf hs,
      ConfidentialInvoice.cancelInvoice_notFound_conf hs,
      ConfidentialInvoice.disputeInvoice_notFound_conf hs,
      ConfidentialInvoice.getInvoice_notFound_conf hs⟩

/-- Witness for C5: id 999 was never assigned in the example states, so every
operation on it reports not-found. -/
theorem missing_invoice_not_found_witness :
    SimpleInvoice.payInvoice exSimpleSt1 2 999 =
      Except.error SimpleInvoice.Err.InvoiceNotFound ∧
    SimpleInvoice.getInvoice exSimpleSt1 999 =
      Except.error SimpleInvoice.Err.InvoiceNotFound ∧
    InvoiceManager.payInvoice exIMSt1 2 77 999 =
      Except.error (InvoiceManager.Err.InvoiceNotFound 999) ∧
    ConfidentialInvoice.disputeInvoice exConfSt1 2 999 =
      Except.error ConfidentialInvoice.Err.InvoiceNotFound := by
  obtain ⟨hsimple, him, hconf⟩ := missing_invoice_not_found
  obtain ⟨hs1, _, _, hs4⟩ := hsimple exSimpleSt1 2 999 (by decide)
  obtain ⟨hm1, _, _⟩ := him exIMSt1 2 77 999 (by decide)
  obtain ⟨_, _, hc3, _⟩ := hconf exConfSt1 2 999 (by decide)
  exact ⟨hs1, hs4, hm1, hc3⟩

/-- C6: creation with a zero recipient or with recipient = caller fails with
the invalid-recipient error in every variant; the reverting call leaves the
state unchanged by construction of the `Except` embedding. -/
theorem invalid_recipient_rejected :
    (∀ (st : SimpleInvoice.State) (c now r amt : Nat) (d : String) (dd : Nat),
      r = 0 ∨ r = c →
      SimpleInvoice.createInvoice st c now r amt d dd =
        Except.error SimpleInvoice.Err.InvalidRecipient) ∧
    (∀ (st : InvoiceManager.State) (c now r ea : Nat) (d : String),
      r = 0 ∨ r = c →
      InvoiceManager.createInvoice st c now r ea d =
        Except.error (InvoiceManager.Err.InvalidRecipient r)) ∧
    (∀ (st : ConfidentialInvoice.State) (c now r ea : Nat) (d : String) (dd : Nat),
      r = 0 ∨ r = c →
      ConfidentialInvoice.createInvoice st c now r ea d dd =
        Except.error ConfidentialInvoice.Err.InvalidRecipient) := by
  refine ⟨?_, ?_, ?_⟩
  · intro st c now r amt d dd hg
    exact SimpleInvoice.createInvoice_invalidRecipient_simple hg
  · intro st c now r ea d hg
    exact InvoiceManager.createInvoice_invalidRecipient_mgr hg
  · intro st c now r ea d dd hg
    exact ConfidentialInvoice.createInvoice_invalidRecipient_conf hg

/-- Witness for C6: a zero recipient and a self-recipient are both rejected on
the freshly deployed contracts. -/
theorem invalid_recipient_rejected_witness :
    SimpleInvoice.createInvoice SimpleInvoice.initState 1 100 0 50 "rent" 0 =
      Except.error SimpleInvoice.Err.InvalidRecipient ∧
    SimpleInvoice.createInvoice SimpleInvoice.initState 1 100 1 50 "rent" 0 =
      Except.error SimpleInvoice.Err.InvalidRecipient ∧
    InvoiceManager.createInvoice InvoiceManager.initState 1 100 0 50 "rent" =
      Except.error (InvoiceManager.Err.InvalidRecipient 0) ∧
    InvoiceManager.createInvoice InvoiceManager.initState 1 100 1 50 "rent" =
      Except.error (InvoiceManager.Err.InvalidRecipient 1) ∧
    ConfidentialInvoice.createInvoice ConfidentialInvoice.initState 1 100 0 50 "rent" 0 =
      Except.error ConfidentialInvoice.Err.InvalidRecipient ∧
    ConfidentialInvoice.createInvoice ConfidentialInvoice.initState 1 100 1 50 "rent" 0 =
      Except.error ConfidentialInvoice.Err.InvalidRecipient := by
  obtain ⟨hsimple, him, hconf⟩ := invalid_recipient_rejected
  exact ⟨hsimple SimpleInvoice.initState 1 100 0 50 "rent" 0 (Or.inl rfl),
    hsimple SimpleInvoice.initState 1 100 1 50 "rent" 0 (Or.inr rfl),
    him InvoiceManager.initState 1 100 0 50 "rent" (Or.inl rfl),
    him InvoiceManager.initState 1 100 1 50 "rent" (Or.inr rfl),
    hconf ConfidentialInvoice.initState 1 100 0 50 "rent" 0 (Or.inl rfl),
    hconf ConfidentialInvoice.initState 1 100 1 50 "rent" 0 (Or.inr rfl)⟩

/-- C7: on a fresh `SimpleInvoice` contract a valid creation returns id 0 with
stored status Pending, and for any successful creation a zero `dueDate`
argument is stored as `createdAt + 30 days` (2592000 seconds) while a non-zero
one is stored as given. -/
theorem simple_create_scenario :
    (∀ (c now r amt : Nat) (d : String), r ≠ 0 → r ≠ c → amt ≠ 0 →
      ∃ st', SimpleInvoice.createInvoice SimpleInvoice.initState c now r amt d 0 =
          Except.ok (0, st') ∧
        (st'.invoices 0).status = SimpleInvoice.InvoiceStatus.Pending ∧
        (st'.invoices 0).dueDate = (st'.invoices 0).createdAt + 30 * 86400) ∧
    (∀ (st st' : SimpleInvoice.State) (c now r amt : Nat) (d : String) (dd i0 : Nat),
      SimpleInvoice.createInvoice st c now r amt d dd = Except.ok (i0, st') →
      (st'.invoices i0).createdAt = now ∧
      (st'.invoices i0).dueDate = if dd = 0 then now + 30 * 86400 else dd) := by
  constructor
  · intro c now r amt d hr0 hrc ha
    have hg : ¬(r = 0 ∨ r = c) := fun h => h.elim hr0 hrc
    obtain ⟨p, hp⟩ : ∃ p,
        SimpleInvoice.createInvoice SimpleInvoice.initState c now r amt d 0 =
        Except.ok p := by
      simp only [SimpleInvoice.createInvoice]
      rw [if_neg hg, if_neg ha]
      exact ⟨_, rfl⟩
    obtain ⟨i0, st2⟩ := p
    obtain ⟨_, _, _, hi0, hst⟩ := SimpleInvoice.createInvoice_ok_elim_simple hp
    subst hst
    subst hi0
    refine ⟨_, hp, ?_, ?_⟩
    · simp [SimpleInvoice.initState, Function.update_same]
    · simp [SimpleInvoice.initState, Function.update_same]
  · intro st st' c now r amt d dd i0 hok
    obtain ⟨_, _, _, hi0, hst⟩ := SimpleInvoice.createInvoice_ok_elim_simple hok
    subst hst
    subst hi0
    constructor
    · simp [Function.update_same]
    · simp [Function.update_same]

/-- Witness for C7: address 1 bills address 2 for 100 with dueDate 0 on the
fresh contract at time 100: id 0, status Pending, dueDate 100 + 2592000. -/
theorem simple_create_scenario_witness :
    ∃ st', SimpleInvoice.createInvoice SimpleInvoice.initState 1 100 2 100 "rent" 0 =
        Except.ok (0, st') ∧
      (st'.invoices 0).status = SimpleInvoice.InvoiceStatus.Pending ∧
      (st'.invoices 0).dueDate = (st'.invoices 0).createdAt + 30 * 86400 ∧
      (st'.invoices 0).createdAt = 100 := by
  obtain ⟨h1, h2⟩ := simple_create_scenario
  obtain ⟨st', hok, hst, hdue⟩ := h1 1 100 2 100 "rent" (by decide) (by decide) (by decide)
  obtain ⟨hcr, _⟩ := h2 SimpleInvoice.initState st' 1 100 2 100 "rent" 0 0 hok
  exact ⟨st', hok, hst, hdue, hcr⟩

/-- C8: a successful pay, cancel or dispute modifies only the target invoice's
status field — plus `updatedAt` in the `InvoiceManager` variant and the two
parties' encrypted balances in `ConfidentialInvoice.payInvoice` — leaving every
other field of the invoice, every other invoice, both index lists and the
counter unchanged, in all three variants. -/
theorem transition_frame :
    (∀ (st st' : SimpleInvoice.State) (c i : Nat),
      SimpleInvoice.payInvoice st c i = Except.ok st' →
      st'.invoices i =
        { st.invoices i with status := SimpleInvoice.InvoiceStatus.Paid } ∧
      (∀ j, j ≠ i → st'.invoices j = st.invoices j) ∧
      st'.sentInvoices = st.sentInvoices ∧
      st'.receivedInvoices = st.receivedInvoices ∧
      st'.invoiceCounter = st.invoiceCounter) ∧
    (∀ (st st' : SimpleInvoice.State) (c i : Nat),
      SimpleInvoice.cancelInvoice st c i = Except.ok st' →
      st'.invoices i =
        { st.invoices i with status := SimpleInvoice.InvoiceStatus.Cancelled } ∧
      (∀ j, j ≠ i → st'.invoices j = st.invoices j) ∧
      st'.sentInvoices = st.sentInvoices ∧
      st'.receivedInvoices = st.receivedInvoices ∧
      st'.invoiceCounter = st.invoiceCounter) ∧
    (∀ (st st' : SimpleInvoice.State) (c i : Nat),
      SimpleInvoice.disputeInvoice st c i = Except.ok st' →
      st'.invoices i =
        { st.invoices i with status := SimpleInvoice.InvoiceStatus.Disputed } ∧
      (∀ j, j ≠ i → st'.invoices j = st.invoices j) ∧
      st'.sentInvoices = st.sentInvoices ∧
      st'.receivedInvoices = st.receivedInvoices ∧
      st'.invoiceCounter = st.invoiceCounter) ∧
    (∀ (st st' : InvoiceManager.State) (c now i : Nat),
      InvoiceManager.payInvoice st c now i = Except.ok st' →
      st'.invoices i = { st.invoices i with
        status := InvoiceManager.InvoiceStatus.Paid, updatedAt := now } ∧
      (∀ j, j ≠ i → st'.invoices j = st.invoices j) ∧
      st'.sentInvoices = st.sentInvoices ∧
      st'.receivedInvoices = st.receivedInvoices ∧
      st'.invoiceIdCounter = st.invoiceIdCounter) ∧
    (∀ (st st' : InvoiceManager.State) (c now i : Nat),
      InvoiceManager.cancelInvoice st c now i = Except.ok st' →
      st'.invoices i = { st.invoices i with
        status := InvoiceManager.InvoiceStatus.Cancelled, updatedAt := now } ∧
      (∀ j, j ≠ i → st'.invoices j = st.invoices j) ∧
      st'.sentInvoices = st.sentInvoices ∧
      st'.receivedInvoices = st.receivedInvoices ∧
      st'.invoiceIdCounter = st.invoiceIdCounter) ∧
    (∀ (st st' : ConfidentialInvoice.State) (c i : Nat),
      ConfidentialInvoice.payInvoice st c i = Except.ok st' →
      st'.invoices i =
        { st.invoices i with status := ConfidentialInvoice.InvoiceStatus.Paid } ∧
      (∀ j, j ≠ i → st'.invoices j = st.invoices j) ∧
      st'.sentInvoices = st.sentInvoices ∧
      st'.receivedInvoices = st.receivedInvoices ∧
      st'.invoiceCounter = st.invoiceCounter ∧
      (∀ a, a ≠ c → a ≠ (st.invoices i).sender →
        st'.encryptedBalances a = st.encryptedBalances a)) ∧
    (∀ (st st' : ConfidentialInvoice.State) (c i : Nat),
      ConfidentialInvoice.cancelInvoice st c i = Except.ok st' →
      st'.invoices i =
        { st.invoices i with status := ConfidentialInvoice.InvoiceStatus.Cancelled } ∧
      (∀ j, j ≠ i → st'.invoices j = st.invoices j) ∧
      st'.sentInvoices = st.sentInvoices ∧
      st'.receivedInvoices = st.receivedInvoices ∧
      st'.invoiceCounter = st.invoiceCounter ∧
      st'.encryptedBalances = st.encryptedBalances) ∧
    (∀ (st st' : ConfidentialInvoice.State) (c i : Nat),
      ConfidentialInvoice.disputeInvoice st c i = Except.ok st' →
      st'.invoices i =
        { st.invoices i with status := ConfidentialInvoice.InvoiceStatus.Disputed } ∧
      (∀ j, j ≠ i → st'.invoices j = st.invoices j) ∧
      st'.sentInvoices = st.sentInvoices ∧
      st'.receivedInvoices = st.receivedInvoices ∧
      st'.invoiceCounter = st.invoiceCounter ∧
      st'.encryptedBalances = st.encryptedBalances) := by
  refine ⟨?_, ?_, ?_, ?_, ?_, ?_, ?_, ?_⟩
  · intro st st' c i hok
    obtain ⟨_, _, _, hst⟩ := SimpleInvoice.payInvoice_ok_elim_simple hok
    subst hst
    exact ⟨Function.update_same _ _ _, fun j hj => Function.update_noteq hj _ _,
      rfl, rfl, rfl⟩
  · intro st st' c i hok
    obtain ⟨_, _, _, hst⟩ := SimpleInvoice.cancelInvoice_ok_elim_simple hok
    subst hst
    exact ⟨Function.update_same _ _ _, fun j hj => Function.update_noteq hj _ _,
      rfl, rfl, rfl⟩
  · intro st st' c i hok
    obtain ⟨_, _, _, hst⟩ := SimpleInvoice.disputeInvoice_ok_elim_simple hok
    subst hst
    exact ⟨Function.update_same _ _ _, fun j hj => Function.update_noteq hj _ _,
      rfl, rfl, rfl⟩
  · intro st st' c now i hok
    obtain ⟨_, _, _, hst⟩ := InvoiceManager.payInvoice_ok_elim_mgr hok
    subst hst
    exact ⟨Function.update_same _ _ _, fun j hj => Function.update_noteq hj _ _,
      rfl, rfl, rfl⟩
  · intro st st' c now i hok
    obtain ⟨_, _, _, hst⟩ := InvoiceManager.cancelInvoice_ok_elim_mgr hok
    subst hst
    exact ⟨Function.update_same _ _ _, fun j hj => Function.update_noteq hj _ _,
      rfl, rfl, rfl⟩
  · intro st st' c i hok
    obtain ⟨_, _, _, hcnt, hinv, hsent, hrecv, hbal⟩ :=
      ConfidentialInvoice.payInvoice_ok_elim_conf hok
    refine ⟨?_, ?_, hsent, hrecv, hcnt, hbal⟩
    · rw [hinv]
      exact Function.update_same _ _ _
    · intro j hj
      rw [hinv]
      exact Function.update_noteq hj _ _
  · intro st st' c i hok
    obtain ⟨_, _, _, hst⟩ := ConfidentialInvoice.cancelInvoice_ok_elim_conf hok
    subst hst
    exact ⟨Function.update_same _ _ _, fun j hj => Function.update_noteq hj _ _,
      rfl, rfl, rfl, rfl⟩
  · intro st st' c i hok
    obtain ⟨_, _, _, hst⟩ := ConfidentialInvoice.disputeInvoice_ok_elim_conf hok
    subst hst
    exact ⟨Function.update_same _ _ _, fun j hj => Function.update_noteq hj _ _,
      rfl, rfl, rfl, rfl⟩

/-- Witness for C8: paying invoice 0 of `exSimpleSt1` flips only its status,
and cancelling invoice 0 of `exConfSt1` leaves lists, counter and balances
untouched. -/
theorem transition_frame_witness :
    SimpleInvoice.payInvoice exSimpleSt1 2 0 = Except.ok exSimpleStPaid ∧
    exSimpleStPaid.invoices 0 =
      { exSimpleSt1.invoices 0 with status := SimpleInvoice.InvoiceStatus.Paid } ∧
    exSimpleStPaid.invoices 1 = exSimpleSt1.invoices 1 ∧
    exSimpleStPaid.sentInvoices = exSimpleSt1.sentInvoices ∧
    exSimpleStPaid.invoiceCounter = exSimpleSt1.invoiceCounter ∧
    ConfidentialInvoice.cancelInvoice exConfSt1 1 0 = Except.ok exConfSt2 ∧
    exConfSt2.invoices 0 =
      { exConfSt1.invoices 0 with status := ConfidentialInvoice.InvoiceStatus.Cancelled } ∧
    exConfSt2.encryptedBalances = exConfSt1.encryptedBalances := by
  have hsok : SimpleInvoice.payInvoice exSimpleSt1 2 0 = Except.ok exSimpleStPaid := rfl
  have hcok : ConfidentialInvoice.cancelInvoice exConfSt1 1 0 = Except.ok exConfSt2 := rfl
  obtain ⟨hfs, hmore⟩ := transition_frame
  obtain ⟨h1, h2, h3, _, h5⟩ := hfs exSimpleSt1 exSimpleStPaid 2 0 hsok
  obtain ⟨hc1, _, _, _, _, hc6⟩ :=
    hmore.2.2.2.2.2.1 exConfSt1 exConfSt2 1 0 hcok
  exact ⟨hsok, h1, h2 1 (by decide), h3, h5, hcok, hc1, hc6⟩

/-- C9: in the encrypted variants, `getEncryptedAmount` returns the stored
handle to the invoice's sender or recipient and fails with the authorization
error for anyone else; `ConfidentialInvoice.getEncryptedBalance` fails with the
authorization error whenever the caller is not the queried user; and the
sent/received list getters are total functions that return the empty list, in
any reachable state, for an address that is party to no existing invoice. -/
theorem encrypted_getters_access :
    (∀ (st : InvoiceManager.State) (c i : Nat), (st.invoices i).sender ≠ 0 →
      ((c = (st.invoices i).sender ∨ c = (st.invoices i).recipient) →
        InvoiceManager.getEncryptedAmount st c i =
          Except.ok (st.invoices i).encryptedAmount) ∧
      (c ≠ (st.invoices i).sender → c ≠ (st.invoices i).recipient →
        InvoiceManager.getEncryptedAmount st c i =
          Except.error (InvoiceManager.Err.NotAuthorized c i))) ∧
    (∀ (st : ConfidentialInvoice.State) (c i : Nat), (st.invoices i).sender ≠ 0 →
      ((c = (st.invoices i).sender ∨ c = (st.invoices i).recipient) →
        ConfidentialInvoice.getEncryptedAmount st c i =
          Except.ok (st.invoices i).encryptedAmount) ∧
      (c ≠ (st.invoices i).sender → c ≠ (st.invoices i).recipient →
        ConfidentialInvoice.getEncryptedAmount st c i =
          Except.error ConfidentialInvoice.Err.NotAuthorized)) ∧
    (∀ (st : ConfidentialInvoice.State) (c u : Nat), c ≠ u →
      ConfidentialInvoice.getEncryptedBalance st c u =
        Except.error ConfidentialInvoice.Err.NotAuthorized) ∧
    (∀ st : ConfidentialInvoice.State, ConfidentialInvoice.Reachable st →
      ∀ a, ((∀ i, (st.invoices i).sender ≠ 0 → (st.invoices i).sender ≠ a) →
          ConfidentialInvoice.getSentInvoices st a = []) ∧
        ((∀ i, (st.invoices i).sender ≠ 0 → (st.invoices i).recipient ≠ a) →
          ConfidentialInvoice.getReceivedInvoices st a = [])) := by
  refine ⟨?_, ?_, ?_, ?_⟩
  · intro st c i hs
    constructor
    · intro hor
      simp only [InvoiceManager.getEncryptedAmount]
      rw [if_neg hs, if_neg (fun hand => hor.elim hand.1 hand.2)]
    · intro h1 h2
      simp only [InvoiceManager.getEncryptedAmount]
      rw [if_neg hs, if_pos ⟨h1, h2⟩]
  · intro st c i hs
    constructor
    · intro hor
      simp only [ConfidentialInvoice.getEncryptedAmount]
      rw [if_neg hs, if_neg (fun hand => hor.elim hand.1 hand.2)]
    · intro h1 h2
      simp only [ConfidentialInvoice.getEncryptedAmount]
      rw [if_neg hs, if_pos ⟨h1, h2⟩]
  · intro st c u hcu
    simp only [ConfidentialInvoice.getEncryptedBalance]
    rw [if_pos hcu]
  · intro st hre a
    obtain ⟨_, _, g3, g4⟩ := ConfidentialInvoice.reachable_goodState hre
    constructor
    · intro hnone
      refine List.eq_nil_iff_forall_not_mem.mpr ?_
      intro x hx
      obtain ⟨hsx, ha0⟩ := g3 a x hx
      exact hnone x (by rw [hsx]; exact ha0) hsx
    · intro hnone
      refine List.eq_nil_iff_forall_not_mem.mpr ?_
      intro x hx
      obtain ⟨hrx, hs0⟩ := g4 a x hx
      exact hnone x hs0 hrx

/-- Witness for C9 at the example states: the recipient reads the encrypted
amount, an outsider is refused, a foreign balance query is refused, and the
uninvolved address 7 has empty sent and received lists in the reachable state
`exConfSt1`. -/
theorem encrypted_getters_access_witness :
    InvoiceManager.getEncryptedAmount exIMSt1 1 0 = Except.ok 50 ∧
    InvoiceManager.getEncryptedAmount exIMSt1 3 0 =
      Except.error (InvoiceManager.Err.NotAuthorized 3 0) ∧
    ConfidentialInvoice.getEncryptedAmount exConfSt1 2 0 =
      Except.ok (Fhe.fromExternal 50) ∧
    ConfidentialInvoice.getEncryptedAmount exConfSt1 3 0 =
      Except.error ConfidentialInvoice.Err.NotAuthorized ∧
    ConfidentialInvoice.getEncryptedBalance exConfSt1 3 2 =
      Except.error ConfidentialInvoice.Err.NotAuthorized ∧
    ConfidentialInvoice.getSentInvoices exConfSt1 7 = [] ∧
    ConfidentialInvoice.getReceivedInvoices exConfSt1 7 = [] := by
  obtain ⟨him, hconf, hbal, hlists⟩ := encrypted_getters_access
  obtain ⟨himok, himerr⟩ := him exIMSt1 1 0 (by decide)
  obtain ⟨_, himerr3⟩ := him exIMSt1 3 0 (by decide)
  obtain ⟨hcok, _⟩ := hconf exConfSt1 2 0 (by decide)
  obtain ⟨_, hcerr⟩ := hconf exConfSt1 3 0 (by decide)
  obtain ⟨hsent, hrecv⟩ := hlists exConfSt1 exConfSt1_reachable 7
  have hno_sender : ∀ i, (exConfSt1.invoices i).sender ≠ 0 →
      (exConfSt1.invoices i).sender ≠ 7 := by
    intro i hi
    by_cases h0 : i = 0
    · subst h0
      decide
    · have hz : exConfSt1.invoices i = ConfidentialInvoice.zeroInvoice := by
        simp [exConfSt1, Function.update_noteq h0]
      rw [hz] at hi
      exact absurd rfl hi
  have hno_recipient : ∀ i, (exConfSt1.invoices i).sender ≠ 0 →
      (exConfSt1.invoices i).recipient ≠ 7 := by
    intro i hi
    by_cases h0 : i = 0
    · subst h0
      decide
    · have hz : exConfSt1.invoices i = ConfidentialInvoice.zeroInvoice := by
        simp [exConfSt1, Function.update_noteq h0]
      rw [hz] at hi
      exact absurd rfl hi
  exact ⟨himok (Or.inl (by decide)), himerr3 (by decide) (by decide),
    hcok (Or.inr (by decide)), hcerr (by decide) (by decide),
    hbal exConfSt1 3 2 (by decide), hsent hno_sender, hrecv hno_recipient⟩

/-- `exIMSt1` with invoice 0 already Paid (updatedAt 77). -/
def exIMStPaid : InvoiceManager.State :=
  { exIMSt1 with
    invoices := Function.update exIMSt1.invoices 0
      ({ exIMSt1.invoices 0 with
         status := InvoiceManager.InvoiceStatus.Paid, updatedAt := 77 }) }

/-- C10: the guards run in the fixed order existence, then status, then caller
authorization, in all three variants; hence a caller holding neither role who
targets an existing non-Pending invoice receives the invalid-status error, not
the authorization error. -/
theorem guard_order_invalid_status_first :
    (∀ (st : SimpleInvoice.State) (c i : Nat),
      (st.invoices i).sender ≠ 0 →
      (st.invoices i).status ≠ SimpleInvoice.InvoiceStatus.Pending →
      c ≠ (st.invoices i).sender → c ≠ (st.invoices i).recipient →
      SimpleInvoice.payInvoice st c i = Except.error SimpleInvoice.Err.InvalidStatus ∧
      SimpleInvoice.cancelInvoice st c i =
        Except.error SimpleInvoice.Err.InvalidStatus ∧
      SimpleInvoice.disputeInvoice st c i =
        Except.error SimpleInvoice.Err.InvalidStatus) ∧
    (∀ (st : InvoiceManager.State) (c now i : Nat),
      (st.invoices i).sender ≠ 0 →
      (st.invoices i).status ≠ InvoiceManager.InvoiceStatus.Pending →
      c ≠ (st.invoices i).sender → c ≠ (st.invoices i).recipient →
      InvoiceManager.payInvoice st c now i =
        Except.error (InvoiceManager.Err.InvoiceNotPending i) ∧
      InvoiceManager.cancelInvoice st c now i =
        Except.error (InvoiceManager.Err.InvoiceNotPending i)) ∧
    (∀ (st : ConfidentialInvoice.State) (c i : Nat),
      (st.invoices i).sender ≠ 0 →
      (st.invoices i).status ≠ ConfidentialInvoice.InvoiceStatus.Pending →
      c ≠ (st.invoices i).sender → c ≠ (st.invoices i).recipient →
      ConfidentialInvoice.payInvoice st c i =
        Except.error ConfidentialInvoice.Err.InvalidStatus ∧
      ConfidentialInvoice.cancelInvoice st c i =
        Except.error ConfidentialInvoice.Err.InvalidStatus ∧
      ConfidentialInvoice.disputeInvoice st c i =
        Except.error ConfidentialInvoice.Err.InvalidStatus) := by
  refine ⟨?_, ?_, ?_⟩
  · intro st c i hs hp _ _
    exact ⟨SimpleInvoice.payInvoice_invalidStatus_simple hs hp,
      SimpleInvoice.cancelInvoice_invalidStatus_simple hs hp,
      SimpleInvoice.disputeInvoice_invalidStatus_simple hs hp⟩
  · intro st c now i hs hp _ _
    exact ⟨InvoiceManager.payInvoice_notPending hs hp,
      InvoiceManager.cancelInvoice_notPending hs hp⟩
  · intro st c i hs hp _ _
    exact ⟨ConfidentialInvoice.payInvoice_invalidStatus_conf hs hp,
      ConfidentialInvoice.cancelInvoice_invalidStatus_conf hs hp,
      ConfidentialInvoice.disputeInvoice_invalidStatus_conf hs hp⟩

/-- Witness for C10: address 3 (neither party) touching the Paid invoice 0 of
each variant, and the Cancelled invoice 0 of `exConfSt2`, is told
invalid-status, not unauthorized. -/
theorem guard_order_invalid_status_first_witness :
    SimpleInvoice.payInvoice exSimpleStPaid 3 0 =
      Except.error SimpleInvoice.Err.InvalidStatus ∧
    SimpleInvoice.cancelInvoice exSimpleStPaid 3 0 =
      Except.error SimpleInvoice.Err.InvalidStatus ∧
    InvoiceManager.payInvoice exIMStPaid 3 88 0 =
      Except.error (InvoiceManager.Err.InvoiceNotPending 0) ∧
    InvoiceManager.cancelInvoice exIMStPaid 3 88 0 =
      Except.error (InvoiceManager.Err.InvoiceNotPending 0) ∧
    ConfidentialInvoice.disputeInvoice exConfSt2 3 0 =
      Except.error ConfidentialInvoice.Err.InvalidStatus := by
  obtain ⟨hsimple, him, hconf⟩ := guard_order_invalid_status_first
  obtain ⟨hs1, hs2, _⟩ :=
    hsimple exSimpleStPaid 3 0 (by decide) (by decide) (by decide) (by decide)
  obtain ⟨hm1, hm2⟩ :=
    him exIMStPaid 3 88 0 (by decide) (by decide) (by decide) (by decide)
  obtain ⟨_, _, hc3⟩ :=
    hconf exConfSt2 3 0 (by decide) (by decide) (by decide) (by decide)
  exact ⟨hs1, hs2, hm1, hm2, hc3⟩
